import Mathlib

/-!
Shallow embedding of the recommendation engine of the
Recommendation-System-Backend repository (FastAPI + MongoDB), together with
proofs checking the natural-language specification against it.

Python dicts are modelled as association lists that keep insertion order
(`upsertA` updates in place, new keys are appended), mirroring CPython's
ordered dicts and `defaultdict`.  `list.sort(key=..., reverse=True)` is
modelled by the stable descending insertion sort `sortDescBy`.  Float
arithmetic is modelled exactly: sums, means and products of ratings are
rationals, and the square roots taken by the similarity formulas live in `ℝ`.
MongoDB ObjectIds are modelled by `Nat`; a rating's `item_id` column holds the
24-hex-character *string* rendering of an ObjectId, which matters for the
typed BSON equality used by `$lookup` (see `bsonEq`).
-/

section Dicts

variable {κ α : Type} [DecidableEq κ]

/-- Lookup in an association list (first matching key wins, as in a dict). -/
def lookupA : List (κ × α) → κ → Option α
  | [], _ => none
  | (k, v) :: rest, key => if k = key then some v else lookupA rest key

/-- Lookup with a default, modelling Python's `d.get(k, default)`. -/
def getDA (l : List (κ × α)) (k : κ) (d : α) : α := (lookupA l k).getD d

/-- Key membership test, modelling Python's `k in d`. -/
def hasKey (l : List (κ × α)) (k : κ) : Bool := (lookupA l k).isSome

/-- Keys of an association list in order. -/
def keysA (l : List (κ × α)) : List κ := l.map Prod.fst

/-- Dict assignment `d[k] = v`: update in place if the key exists, else
append, preserving CPython dict insertion order. -/
def upsertA : List (κ × α) → κ → α → List (κ × α)
  | [], k, v => [(k, v)]
  | (k1, v1) :: rest, k, v =>
      if k1 = k then (k1, v) :: rest else (k1, v1) :: upsertA rest k v

/-- Get-or-default-then-modify, modelling `defaultdict` / `Counter` access
`d[k] = f(d[k])` where a missing key reads as `d`. -/
def updA : List (κ × α) → κ → α → (α → α) → List (κ × α)
  | [], k, d, f => [(k, f d)]
  | (k1, v1) :: rest, k, d, f =>
      if k1 = k then (k1, f v1) :: rest else (k1, v1) :: updA rest k d f

end Dicts

section StableSort

variable {α β : Type} [LinearOrder β]

/-- Insert `x` into a descending list, after existing strictly-greater keys
and before equal ones; combined with `sortDescBy` this reproduces the
stability of Python's `list.sort(key=..., reverse=True)`. -/
def insertDescBy (key : α → β) (x : α) : List α → List α
  | [] => [x]
  | y :: ys => if key x < key y then y :: insertDescBy key x ys else x :: y :: ys

/-- Stable descending sort by a key, modelling `sort(key=..., reverse=True)`. -/
def sortDescBy (key : α → β) : List α → List α
  | [] => []
  | x :: xs => insertDescBy key x (sortDescBy key xs)

end StableSort

/-- One document of the `ratings` collection, as written by `create_rating`
in `app/routers/ratings.py`: `user_id` is a string, `rating` an integer in
[1,5] stored here as an exact rational, and `item_id` holds the
*string* form of the rated item's ObjectId (modelled by its `Nat` code). -/
structure Rating where
  userId : String
  itemId : Nat
  rating : ℚ
deriving DecidableEq

/-- Type-specific metadata map of an item.  The fields are the keys the
feature extractor reads; `category` can appear here through the free-form
metadata merge of `update_item`, but `extract_item_features` never reads it
(products keep their category as a top-level item field). -/
structure ItemMeta where
  director : Option String := none
  cast : List String := []
  brand : Option String := none
  author : Option String := none
  publisher : Option String := none
  category : Option String := none
deriving DecidableEq

/-- One document of the `items` collection.  `id` models the ObjectId
`_id`; `category` is the top-level field written by `create_item` for
products. -/
structure Item where
  id : Nat
  item_type : String
  genres : List String := []
  tags : List String := []
  category : Option String := none
  metadata : ItemMeta := {}
deriving DecidableEq

/-- The data store visible to the engine: the two collections it reads,
each in natural (insertion) order. -/
structure DB where
  items : List Item
  ratings : List Rating

/-- A BSON value as far as the `$lookup` equality match of
`get_popular_items` is concerned: `oid n` is the ObjectId with code `n`,
`oidStr n` its 24-hex-character string rendering (the form stored in
`ratings.item_id`). -/
inductive BVal
  | oid (n : Nat)
  | oidStr (n : Nat)
deriving DecidableEq

/-- BSON equality as used by an equality `$lookup`: values of different BSON
types never compare equal, in particular an ObjectId never equals its own
string rendering. -/
def bsonEq : BVal → BVal → Bool
  | .oid a, .oid b => a == b
  | .oidStr a, .oidStr b => a == b
  | _, _ => false

/-- Python truthiness of `d.get(key)` for an optional string field: missing
and empty strings are falsy. -/
def truthyStr : Option String → Bool
  | none => false
  | some s => !s.isEmpty

/-- Python truthiness of an optional list field: the empty list is falsy. -/
def truthyList (l : List String) : Bool := !l.isEmpty

/-- A user's rating map `{item_id: rating}`, keyed by rated item. -/
abbrev RMap := List (Nat × ℚ)

/-- A feature vector: feature key to non-negative weight. -/
abbrev FMap := List (String × ℚ)

/-- Common keys of two rating maps, `set(r1) & set(r2)` (one canonical
order; every consumer is order-independent). -/
def commonKeys (r1 r2 : RMap) : List Nat :=
  ((keysA r1).filter (fun k => hasKey r2 k)).dedup

/-- Union of the key sets of two feature vectors, `set(f1) | set(f2)`. -/
def unionKeys (f1 f2 : FMap) : List String :=
  (keysA f1 ++ keysA f2).dedup

section SimilarityEngine

variable {κ : Type} [DecidableEq κ]

/-- Dot product of two maps over a given key list (missing key reads as 0). -/
def dotOver (r1 r2 : List (κ × ℚ)) (ks : List κ) : ℚ :=
  (ks.map (fun k => getDA r1 k 0 * getDA r2 k 0)).sum

/-- Sum of squared weights of a map over a given key list. -/
def sumSqOver (r : List (κ × ℚ)) (ks : List κ) : ℚ :=
  (ks.map (fun k => (getDA r k 0) ^ 2)).sum

/-- Euclidean norm of a map over a given key list, `math.sqrt(sum(... ** 2))`. -/
noncomputable def magnitudeOf (r : List (κ × ℚ)) (ks : List κ) : ℝ :=
  Real.sqrt ((sumSqOver r ks : ℚ) : ℝ)

/-- Mean of a map's values over a given key list. -/
def pearsonMean (r : List (κ × ℚ)) (c : List κ) : ℚ :=
  (c.map (fun i => getDA r i 0)).sum / c.length

end SimilarityEngine

/-- Pearson numerator `sum((r1[i]-mean1)*(r2[i]-mean2))` over common items. -/
def pearsonNum (r1 r2 : RMap) (c : List Nat) : ℚ :=
  (c.map (fun i => (getDA r1 i 0 - pearsonMean r1 c) * (getDA r2 i 0 - pearsonMean r2 c))).sum

/-- Pearson `sum_sq_diff` term `sum((r[i]-mean)**2)` over common items. -/
def pearsonSumSq (r : RMap) (c : List Nat) : ℚ :=
  (c.map (fun i => (getDA r i 0 - pearsonMean r c) ^ 2)).sum

/-- Pearson denominator `math.sqrt(sum_sq_diff1 * sum_sq_diff2)`. -/
noncomputable def pearsonDenom (r1 r2 : RMap) : ℝ :=
  Real.sqrt ((↑(pearsonSumSq r1 (commonKeys r1 r2) * pearsonSumSq r2 (commonKeys r1 r2)) : ℝ))

/-- The `cosine_similarity` of `app/services/collaborative_filtering.py`:
cosine over the items rated by both users, 0.0 on empty intersection or a
zero magnitude. -/
noncomputable def cosine_similarity (r1 r2 : RMap) : ℝ :=
  let c := commonKeys r1 r2
  if c.length = 0 then 0
  else if magnitudeOf r1 c = 0 ∨ magnitudeOf r2 c = 0 then 0
  else (dotOver r1 r2 c : ℝ) / (magnitudeOf r1 c * magnitudeOf r2 c)

/-- The `pearson_correlation` of `app/services/collaborative_filtering.py`:
0.0 when fewer than two common items or a zero denominator. -/
noncomputable def pearson_correlation (r1 r2 : RMap) : ℝ :=
  let c := commonKeys r1 r2
  if c.length < 2 then 0
  else if pearsonDenom r1 r2 = 0 then 0
  else (pearsonNum r1 r2 c : ℝ) / pearsonDenom r1 r2

/-- The `cosine_similarity_features` of `app/services/content_based.py`:
cosine over the union of feature keys, 0.0 on empty union or zero magnitude. -/
noncomputable def cosine_similarity_features (f1 f2 : FMap) : ℝ :=
  let ks := unionKeys f1 f2
  if ks.length = 0 then 0
  else if magnitudeOf f1 ks = 0 ∨ magnitudeOf f2 ks = 0 then 0
  else (dotOver f1 f2 ks : ℝ) / (magnitudeOf f1 ks * magnitudeOf f2 ks)

/-- The `extract_item_features` of `app/services/content_based.py`:
`genre:`/`tag:`/`type:` entries at 1.0; movies add director (1.0) and the
first five cast members (0.5); products add brand (1.0, from metadata) and
category (1.0, from the item's *top-level* `category` field); books add
author (1.0) and publisher (0.5). -/
def extract_item_features (item : Item) : FMap :=
  let fs : FMap := item.genres.foldl (fun acc g => upsertA acc ("genre:" ++ g) 1) []
  let fs := item.tags.foldl (fun acc t => upsertA acc ("tag:" ++ t) 1) fs
  let fs := upsertA fs ("type:" ++ item.item_type) 1
  let fs :=
    if item.item_type = "movie" then
      let fs :=
        if truthyStr item.metadata.director then
          upsertA fs ("director:" ++ item.metadata.director.getD "") 1
        else fs
      if truthyList item.metadata.cast then
        (item.metadata.cast.take 5).foldl (fun acc a => upsertA acc ("actor:" ++ a) (1/2)) fs
      else fs
    else fs
  let fs :=
    if item.item_type = "product" then
      let fs :=
        if truthyStr item.metadata.brand then
          upsertA fs ("brand:" ++ item.metadata.brand.getD "") 1
        else fs
      if truthyStr item.category then
        upsertA fs ("category:" ++ item.category.getD "") 1
      else fs
    else fs
  let fs :=
    if item.item_type = "book" then
      let fs :=
        if truthyStr item.metadata.author then
          upsertA fs ("author:" ++ item.metadata.author.getD "") 1
        else fs
      if truthyStr item.metadata.publisher then
        upsertA fs ("publisher:" ++ item.metadata.publisher.getD "") (1/2)
      else fs
    else fs
  fs

/-- The `get_user_ratings_dict` of `app/services/collaborative_filtering.py`:
the dict comprehension `{r["item_id"]: float(r["rating"])}` over the user's
ratings in collection order. -/
def get_user_ratings_dict (db : DB) (u : String) : RMap :=
  (db.ratings.filter (fun r => r.userId == u)).foldl
    (fun acc r => upsertA acc r.itemId r.rating) []

/-- The `get_all_users_ratings` of `app/services/collaborative_filtering.py`:
a `defaultdict(dict)` keyed by user in first-appearance order. -/
def get_all_users_ratings (db : DB) : List (String × RMap) :=
  db.ratings.foldl
    (fun acc r => updA acc r.userId [] (fun m => upsertA m r.itemId r.rating)) []

/-- The `find_similar_users` of `app/services/collaborative_filtering.py`:
skip the user themselves and any user with fewer than `minCommon` co-rated
items, keep strictly positive Pearson correlations, sort descending, take
`topN`. -/
noncomputable def find_similar_users (db : DB) (u : String) (minCommon : Nat) (topN : Nat) :
    List (String × ℝ) :=
  let ur := get_user_ratings_dict db u
  if ur.length = 0 then []
  else
    let sims := (get_all_users_ratings db).foldl
      (fun acc p =>
        if p.1 = u then acc
        else if (commonKeys ur p.2).length < minCommon then acc
        else
          let s := pearson_correlation ur p.2
          if 0 < s then acc ++ [(p.1, s)] else acc)
      ([] : List (String × ℝ))
    (sortDescBy (fun p => p.2) sims).take topN

/-- One annotated recommendation record: the item snapshot, its string id
(`item["id"] = str(item["_id"])`, modelled by the same `Nat`), the
`recommendation_score` and the `recommendation_type` tag. -/
structure RecOut where
  itemId : Nat
  item : Item
  score : ℝ
  recType : String

/-- The `generate_collaborative_recommendations` of
`app/services/collaborative_filtering.py`: accumulate
`score += similarity * rating` and `count += 1` per unseen item over the
qualifying neighbors, average by the count, sort descending, truncate, and
fetch each item snapshot (dropping ids with no stored item). -/
noncomputable def generate_collaborative_recommendations (db : DB) (u : String)
    (limit : Nat) (minSim : ℝ) : List RecOut :=
  let ur := get_user_ratings_dict db u
  let rated := keysA ur
  let similar := find_similar_users db u 3 50
  if similar.length = 0 then []
  else
    let itemScores := similar.foldl
      (fun acc p =>
        if p.2 < minSim then acc
        else
          (get_user_ratings_dict db p.1).foldl
            (fun acc2 q =>
              if q.1 ∈ rated then acc2
              else updA acc2 q.1 ((0 : ℝ), (0 : Nat))
                (fun sc => (sc.1 + p.2 * (q.2 : ℝ), sc.2 + 1)))
            acc)
      ([] : List (Nat × (ℝ × Nat)))
    let recommendations : List (Nat × ℝ) :=
      itemScores.filterMap (fun e => if 0 < e.2.2 then some (e.1, e.2.1 / (e.2.2 : ℝ)) else none)
    ((sortDescBy Prod.snd recommendations).take limit).filterMap
      (fun rec =>
        match db.items.find? (fun it => it.id == rec.1) with
        | some it => some ⟨rec.1, it, rec.2, "collaborative"⟩
        | none => none)

/-- The user's rating documents, `db.ratings.find({"user_id": u})`. -/
def ratingsOfUser (db : DB) (u : String) : List Rating :=
  db.ratings.filter (fun r => r.userId == u)

/-- The `get_user_preferred_features` of `app/services/content_based.py`:
accumulate `weight * (rating/5)` per feature over the items rated at least
`minRating`, then max-normalize. -/
def get_user_preferred_features (db : DB) (u : String) (minRating : ℚ) : FMap :=
  let ratings := ratingsOfUser db u
  if ratings.length = 0 then []
  else
    let itemIds := (ratings.filter (fun r => minRating ≤ r.rating)).map Rating.itemId
    if itemIds.length = 0 then []
    else
      let items := db.items.filter (fun it => itemIds.contains it.id)
      let fw := ratings.foldl
        (fun acc r =>
          if r.rating < minRating then acc
          else
            match items.find? (fun it => it.id == r.itemId) with
            | none => acc
            | some it =>
                (extract_item_features it).foldl
                  (fun acc2 f => updA acc2 f.1 0 (fun w => w + f.2 * (r.rating / 5))) acc)
        ([] : FMap)
      if fw.length = 0 then []
      else
        let maxw := ((fw.map Prod.snd).maximum?).getD 0
        if 0 < maxw then fw.map (fun e => (e.1, e.2 / maxw)) else fw

/-- The `generate_content_based_recommendations` of
`app/services/content_based.py`: cosine between the user profile and each
unrated item's features, keep those at least `minSim`, sort descending,
truncate. -/
noncomputable def generate_content_based_recommendations (db : DB) (u : String)
    (limit : Nat) (minSim : ℝ) : List RecOut :=
  let uf := get_user_preferred_features db u 3
  if uf.length = 0 then []
  else
    let ratedIds := (ratingsOfUser db u).map Rating.itemId
    let sims := db.items.foldl
      (fun acc it =>
        if it.id ∈ ratedIds then acc
        else
          let s := cosine_similarity_features uf (extract_item_features it)
          if minSim ≤ s then acc ++ [⟨it.id, it, s, "content_based"⟩] else acc)
      ([] : List RecOut)
    (sortDescBy RecOut.score sims).take limit

/-- An `item_id` argument as received over HTTP: either a string that is not
a well-formed ObjectId literal, or the string form of the ObjectId `n`. -/
inductive IdStr
  | invalid (s : String)
  | valid (n : Nat)
deriving DecidableEq

/-- The `ObjectId.is_valid` check on an `IdStr`. -/
def isValidObjectId : IdStr → Bool
  | .invalid _ => false
  | .valid _ => true

/-- The `find_similar_items` of `app/services/content_based.py`: empty on a
malformed or unknown id; otherwise cosine between the query item's features
and every other stored item of the same `item_type`, keep those at least
`minSim`, sort descending, truncate. -/
noncomputable def find_similar_items (db : DB) (itemId : IdStr) (limit : Nat)
    (minSim : ℝ) : List RecOut :=
  match itemId with
  | .invalid _ => []
  | .valid n =>
    match db.items.find? (fun it => it.id == n) with
    | none => []
    | some item =>
      let itemF := extract_item_features item
      let others := db.items.filter (fun it => it.item_type == item.item_type && !(it.id == n))
      let sims := others.foldl
        (fun acc it =>
          let s := cosine_similarity_features itemF (extract_item_features it)
          if minSim ≤ s then acc ++ [⟨it.id, it, s, "content_based"⟩] else acc)
        ([] : List RecOut)
      (sortDescBy RecOut.score sims).take limit

/-- One output row of `get_popular_items`: the item joined with its rating
aggregate and the popularity score. -/
structure PopRec where
  item : Item
  rating_count : Nat
  popularity_score : ℚ
  recType : String
deriving DecidableEq

/-- Average of a list of rationals.  `$avg` of an empty array is null in
MongoDB; that case is unreachable below whenever `min_ratings ≥ 1`, which
every caller in the repository guarantees, so 0 here is a junk value. -/
def listAvg (l : List ℚ) : ℚ := l.sum / l.length

/-- The optional `$match` filters of `get_popular_items`: `item_type` and
`category` match by field equality, `genre` matches when the `genres` array
contains the value. -/
def matchesFilters (itemType category genre : Option String) (it : Item) : Bool :=
  (match itemType with | some t => it.item_type == t | none => true) &&
  (match category with | some c => it.category == some c | none => true) &&
  (match genre with | some g => it.genres.contains g | none => true)

/-- The `get_popular_items` of `app/services/popular_recommendations.py`:
filter, `$lookup` the ratings whose `item_id` equals the item's `_id`
(a typed BSON equality between the ObjectId `_id` and the *string*
`item_id`, see `bsonEq`), keep items with at least `minRatings` joined
ratings, score `avg * (1 + 0.1 * count)`, sort descending, truncate. -/
def get_popular_items (db : DB) (itemType category genre : Option String)
    (limit : Nat) (minRatings : Nat) : List PopRec :=
  let filtered := db.items.filter (matchesFilters itemType category genre)
  let joined := filtered.map
    (fun it => (it, db.ratings.filter (fun r => bsonEq (.oidStr r.itemId) (.oid it.id))))
  let surviving := joined.filter (fun p => minRatings ≤ p.2.length)
  let scored := surviving.map
    (fun p =>
      let avg := listAvg (p.2.map Rating.rating)
      let cnt := p.2.length
      (⟨p.1, cnt, avg * (1 + (1 : ℚ)/10 * cnt), "popular"⟩ : PopRec))
  (sortDescBy PopRec.popularity_score scored).take limit

/-- Merge accumulator entry of the hybrid blender (`item_scores[item_id]`). -/
structure HybAcc where
  item : Option RecOut := none
  collaborative_score : ℝ := 0
  content_score : ℝ := 0
  count : Nat := 0

/-- One output row of the hybrid blender. -/
structure HybRec where
  itemId : Nat
  item : Item
  score : ℝ
  collaborative_score : ℝ
  content_score : ℝ
  recType : String

/-- The `normalize_scores` helper of `generate_hybrid_recommendations`:
divide by the maximum score.  When the list is empty nothing is produced;
when the maximum is 0 the `normalized_score` key is never written and every
later `rec.get("normalized_score", 0)` reads 0, modelled by pairing each
record with its normalized score. -/
noncomputable def normalize_scores (recs : List RecOut) : List (RecOut × ℝ) :=
  if recs.length = 0 then []
  else
    let maxScore := ((recs.map RecOut.score).maximum?).getD 0
    if maxScore = 0 then recs.map (fun r => (r, 0))
    else recs.map (fun r => (r, r.score / maxScore))

/-- The `generate_hybrid_recommendations` of
`app/services/recommendation_service.py`: over-fetch `limit*2` from both
recommenders, normalize each list, merge by item id keeping the first
snapshot seen, score `cw * collaborative + cwt * content`, boost by 1.2 when
the item appeared in both lists, sort descending, truncate. -/
noncomputable def generate_hybrid_recommendations (db : DB) (u : String) (limit : Nat)
    (cw cwt : ℝ) (minSim : ℝ) : List HybRec :=
  let collab := normalize_scores (generate_collaborative_recommendations db u (limit * 2) minSim)
  let content := normalize_scores (generate_content_based_recommendations db u (limit * 2) minSim)
  let acc1 := collab.foldl
    (fun acc p =>
      updA acc p.1.itemId {}
        (fun e => { item := some p.1, collaborative_score := p.2,
                    content_score := e.content_score, count := e.count + 1 }))
    ([] : List (Nat × HybAcc))
  let acc2 := content.foldl
    (fun acc p =>
      updA acc p.1.itemId {}
        (fun e => { item := (match e.item with | none => some p.1 | some b => some b),
                    collaborative_score := e.collaborative_score,
                    content_score := p.2, count := e.count + 1 }))
    acc1
  let recs := acc2.filterMap
    (fun e =>
      match e.2.item with
      | none => none
      | some base =>
        let h := cw * e.2.collaborative_score + cwt * e.2.content_score
        let h := if 1 < e.2.count then h * (6/5) else h
        some (⟨e.1, base.item, h, e.2.collaborative_score, e.2.content_score, "hybrid"⟩ : HybRec))
  (sortDescBy HybRec.score recs).take limit

/-- A recommendation record of any of the four methods, as returned by the
`List[dict]` endpoints. -/
inductive AnyRec
  | collab (r : RecOut)
  | content (r : RecOut)
  | hyb (r : HybRec)
  | pop (r : PopRec)

/-- The `get_personalized_recommendations` dispatcher of
`app/services/recommendation_service.py` (default parameters of the three
recommenders filled in as in the source). -/
noncomputable def get_personalized_recommendations (db : DB) (u : String) (limit : Nat)
    (method : String) : List AnyRec :=
  if method = "collaborative" then
    (generate_collaborative_recommendations db u limit (3/10)).map .collab
  else if method = "content" then
    (generate_content_based_recommendations db u limit (3/10)).map .content
  else
    (generate_hybrid_recommendations db u limit (6/10) (4/10) (3/10)).map .hyb

/-- The `/recommendations/personalized` endpoint of
`app/routers/recommendations.py`: when the selected recommender returns an
empty list, substitute `get_popular_items` with `min_ratings = 1`. -/
noncomputable def get_personalized_recommendations_endpoint (db : DB) (u : String)
    (method : String) (limit : Nat) : List AnyRec :=
  let recs := get_personalized_recommendations db u limit method
  if recs.length = 0 then (get_popular_items db none none none limit 1).map .pop
  else recs

/-- States reachable through the API: every rating value is at least 1 (the
schema enforces 1–5) and every rating references a stored item
(`create_rating` checks existence; no item was deleted since). -/
def WellFormedDB (db : DB) : Prop :=
  ∀ r ∈ db.ratings, 1 ≤ r.rating ∧ ∃ it ∈ db.items, it.id = r.itemId

/-- Neighbors of `u` that contribute to item `i` per the spec's description
of the collaborative accumulation: among the fetched similar users, those
whose similarity passes `minSim` and who rated `i`. -/
noncomputable def collabContributors (db : DB) (u : String) (minSim : ℝ) (i : Nat) :
    List (String × ℝ) :=
  (find_similar_users db u 3 50).filter
    (fun p => decide (minSim ≤ p.2) && hasKey (get_user_ratings_dict db p.1) i)

/-- Sum of `similarity * neighbor_rating` over the contributing neighbors. -/
noncomputable def collabContribSum (db : DB) (u : String) (minSim : ℝ) (i : Nat) : ℝ :=
  ((collabContributors db u minSim i).map
    (fun p => p.2 * ((getDA (get_user_ratings_dict db p.1) i 0 : ℚ) : ℝ))).sum

/-- Number of contributing neighbors of item `i`. -/
noncomputable def collabContribCount (db : DB) (u : String) (minSim : ℝ) (i : Nat) : Nat :=
  (collabContributors db u minSim i).length

/-- Catalog with a single rated movie, and a second user `B` with no
ratings: the failing input for the fallback contract. -/
def dbOneRated : DB :=
  { items := [{ id := 1, item_type := "movie", genres := ["g"] }],
    ratings := [{ userId := "A", itemId := 1, rating := 5 }] }

/-- The spec's collaborative scenario: user `A` rates item1=5, item2=4 and
user `B` rates item1=5, item2=4, item3=5. -/
def dbScenario : DB :=
  { items := [{ id := 1, item_type := "movie" }, { id := 2, item_type := "movie" },
              { id := 3, item_type := "movie" }],
    ratings := [{ userId := "A", itemId := 1, rating := 5 },
                { userId := "A", itemId := 2, rating := 4 },
                { userId := "B", itemId := 1, rating := 5 },
                { userId := "B", itemId := 2, rating := 4 },
                { userId := "B", itemId := 3, rating := 5 }] }

/-- Two movies sharing a genre and one user who rated only the first: the
collaborative list is empty while the content list is not. -/
def dbContentOnly : DB :=
  { items := [{ id := 1, item_type := "movie", genres := ["g"] },
              { id := 2, item_type := "movie", genres := ["g"] }],
    ratings := [{ userId := "U", itemId := 1, rating := 5 }] }

/-- Users `A` and `B` share three co-rated items and `B` rated a fourth:
the collaborative recommender returns that fourth item to `A`. -/
def dbNeighbors : DB :=
  { items := [{ id := 1, item_type := "movie" }, { id := 2, item_type := "movie" },
              { id := 3, item_type := "movie" }, { id := 4, item_type := "movie" }],
    ratings := [{ userId := "A", itemId := 1, rating := 5 },
                { userId := "A", itemId := 2, rating := 4 },
                { userId := "A", itemId := 3, rating := 5 },
                { userId := "B", itemId := 1, rating := 5 },
                { userId := "B", itemId := 2, rating := 4 },
                { userId := "B", itemId := 3, rating := 5 },
                { userId := "B", itemId := 4, rating := 5 }] }

/-- Users `A` and `B` share three co-rated items (all rated below 3, so
`A`'s content profile is empty) and `B` rated a fourth item: the content
recommender returns nothing while the collaborative recommender returns
item 4. -/
def dbLowRatings : DB :=
  { items := [{ id := 1, item_type := "movie" }, { id := 2, item_type := "movie" },
              { id := 3, item_type := "movie" }, { id := 4, item_type := "movie" }],
    ratings := [{ userId := "A", itemId := 1, rating := 2 },
                { userId := "A", itemId := 2, rating := 1 },
                { userId := "A", itemId := 3, rating := 2 },
                { userId := "B", itemId := 1, rating := 2 },
                { userId := "B", itemId := 2, rating := 1 },
                { userId := "B", itemId := 3, rating := 2 },
                { userId := "B", itemId := 4, rating := 5 }] }

/-- A product whose category sits only in the metadata map (reachable via
the free-form metadata merge of `update_item`). -/
def productMetaCategory : Item :=
  { id := 1, item_type := "product", metadata := { category := some "gadgets" } }

/-- A product with the usual top-level category field and no metadata
category. -/
def productTopCategory : Item :=
  { id := 2, item_type := "product", category := some "gadgets" }

/-- Helper: the `$lookup` of `get_popular_items` compares the ObjectId `_id`
with the string `item_id`, so no rating ever joins and, for any
`min_ratings ≥ 1`, the result is empty on every data store. -/
theorem get_popular_items_always_empty (db : DB) (it ct g : Option String)
    (limit k : Nat) (hk : 1 ≤ k) :
    get_popular_items db it ct g limit k = [] := by
  rw [get_popular_items]
  have hsurv :
      ((db.items.filter (matchesFilters it ct g)).map
        (fun itx => (itx, db.ratings.filter (fun r => bsonEq (.oidStr r.itemId) (.oid itx.id))))).filter
        (fun p => decide (k ≤ p.2.length)) = [] := by
    rw [List.filter_eq_nil]
    intro p hp
    rcases List.mem_map.mp hp with ⟨itx, _, rfl⟩
    have hemp : db.ratings.filter (fun r => bsonEq (.oidStr r.itemId) (.oid itx.id)) = [] := by
      rw [List.filter_eq_nil]
      intro r _
      simp [bsonEq]
    simp only [hemp]
    simp
    omega
  simp only [hsurv]
  simp [sortDescBy]

/-- C1: on the store `dbOneRated` — one movie, one rating of it — the
personalized endpoint for the ratingless user `B` falls back to
`get_popular_items(min_ratings=1)` and still returns the empty list,
although item 1 has a rating, because the fallback's `$lookup` joins the
ObjectId `_id` against the string `item_id` and never matches.  The spec's
fallback contract promises a non-empty ranked list here. -/
theorem C1_fallback_empty_despite_rated_item :
    get_personalized_recommendations_endpoint dbOneRated "B" "hybrid" 10 = [] ∧
    (dbOneRated.ratings.filter (fun r => r.itemId == 1)).length = 1 ∧
    dbOneRated.items.map Item.id = [1] :=
  ⟨rfl, rfl, rfl⟩

/-- C2: on the same store, `get_popular_items` with default filters,
`limit=10` and `min_ratings=1` returns the empty list even though item 1
has exactly one rating referring to it: the type-mismatched `$lookup`
excludes every item, where the spec says the item's own ratings are joined
and items with at least `min_ratings` of them survive. -/
theorem C2_popular_join_never_matches :
    get_popular_items dbOneRated none none none 10 1 = [] ∧
    (dbOneRated.ratings.filter (fun r => r.itemId == 1)).length = 1 :=
  ⟨rfl, rfl⟩

/-- C3, counterexample: in the spec's scenario store, `find_similar_users
("A")` with its default `min_common_items = 3` returns the empty list (A
and B share only 2 items), not `B`, and the collaborative recommender
returns the empty list, not item 3 with score 5.0. -/
theorem C3_counterexample :
    find_similar_users dbScenario "A" 3 10 = [] ∧
    generate_collaborative_recommendations dbScenario "A" 10 (3/10) = [] ∧
    ([] : List (String × ℝ)) ≠ [("B", 1)] := by
  refine ⟨rfl, rfl, by simp⟩

/-- C3, amended: in the scenario store the Pearson correlation of A's and
B's rating maps is 1.0, but — the two users sharing only two common items,
below the default `min_common_items = 3` — `find_similar_users("A")`
returns no users and `generate_collaborative_recommendations("A")` returns
no items. -/
theorem C3_scenario_amended :
    pearson_correlation (get_user_ratings_dict dbScenario "A")
      (get_user_ratings_dict dbScenario "B") = 1 ∧
    find_similar_users dbScenario "A" 3 10 = [] ∧
    generate_collaborative_recommendations dbScenario "A" 10 (3/10) = [] := by
  refine ⟨?_, rfl, rfl⟩
  have hA : get_user_ratings_dict dbScenario "A" = [(1,5),(2,4)] := rfl
  have hB : get_user_ratings_dict dbScenario "B" = [(1,5),(2,4),(3,5)] := rfl
  rw [hA, hB]
  have hc : commonKeys [(1,5),(2,4)] [(1,5),(2,4),(3,5)] = [1,2] := rfl
  have hd : pearsonDenom [(1,5),(2,4)] [(1,5),(2,4),(3,5)] = 1/2 := by
    have h1 : pearsonSumSq [(1,5),(2,4)] [1,2] * pearsonSumSq [(1,5),(2,4),(3,5)] [1,2]
        = 1/4 := by
      norm_num [pearsonSumSq, pearsonMean, getDA, lookupA]
    rw [pearsonDenom, hc, h1]
    rw [show (((1:ℚ)/4 : ℚ) : ℝ) = (1/2 : ℝ)^2 by norm_num]
    exact Real.sqrt_sq (by norm_num)
  have hn : pearsonNum [(1,5),(2,4)] [(1,5),(2,4),(3,5)] [1,2] = 1/2 := by
    norm_num [pearsonNum, pearsonMean, getDA, lookupA]
  rw [pearson_correlation, hc, hd, hn]
  norm_num

/-- C4, counterexample: the two maps `{1: 5, 2: 5}` assign identical values
to each of their (two) common keys, yet Pearson returns 0.0 — the zero-
variance denominator guard fires — not 1.0 as the claim states. -/
theorem C4_counterexample :
    pearson_correlation [(1,5),(2,5)] [(1,5),(2,5)] = 0 ∧
    pearson_correlation [(1,5),(2,5)] [(1,5),(2,5)] ≠ 1 := by
  have hc : commonKeys [(1,5),(2,5)] [(1,5),(2,5)] = [1,2] := rfl
  have h0 : pearson_correlation [(1,5),(2,5)] [(1,5),(2,5)] = 0 := by
    have hd : pearsonDenom [(1,5),(2,5)] [(1,5),(2,5)] = 0 := by
      have h1 : pearsonSumSq [(1,5),(2,5)] [1,2] * pearsonSumSq [(1,5),(2,5)] [1,2] = 0 := by
        norm_num [pearsonSumSq, pearsonMean, getDA, lookupA]
      rw [pearsonDenom, hc, h1]
      norm_num
    rw [pearson_correlation, hc, hd]
    norm_num
  exact ⟨h0, by rw [h0]; norm_num⟩

/-- C8: each similarity function is a total function, and whenever the
denominator of its formula would vanish — empty common key set, a zero
magnitude, fewer than two common keys, or a zero Pearson denominator — it
returns 0.0 instead of dividing. -/
theorem C8_similarity_division_guards (r1 r2 : RMap) (f1 f2 : FMap) :
    ((commonKeys r1 r2).length = 0 → cosine_similarity r1 r2 = 0) ∧
    ((magnitudeOf r1 (commonKeys r1 r2) = 0 ∨ magnitudeOf r2 (commonKeys r1 r2) = 0) →
      cosine_similarity r1 r2 = 0) ∧
    ((commonKeys r1 r2).length < 2 → pearson_correlation r1 r2 = 0) ∧
    (pearsonDenom r1 r2 = 0 → pearson_correlation r1 r2 = 0) ∧
    ((unionKeys f1 f2).length = 0 → cosine_similarity_features f1 f2 = 0) ∧
    ((magnitudeOf f1 (unionKeys f1 f2) = 0 ∨ magnitudeOf f2 (unionKeys f1 f2) = 0) →
      cosine_similarity_features f1 f2 = 0) := by
  refine ⟨?_, ?_, ?_, ?_, ?_, ?_⟩
  · intro h
    rw [cosine_similarity, if_pos h]
  · intro h
    by_cases hl : (commonKeys r1 r2).length = 0
    · rw [cosine_similarity, if_pos hl]
    · rw [cosine_similarity, if_neg hl, if_pos h]
  · intro h
    rw [pearson_correlation, if_pos h]
  · intro h
    by_cases hl : (commonKeys r1 r2).length < 2
    · rw [pearson_correlation, if_pos hl]
    · rw [pearson_correlation, if_neg hl, if_pos h]
  · intro h
    rw [cosine_similarity_features, if_pos h]
  · intro h
    by_cases hl : (unionKeys f1 f2).length = 0
    · rw [cosine_similarity_features, if_pos hl]
    · rw [cosine_similarity_features, if_neg hl, if_pos h]

/-- C8, witness: on two empty rating maps and two empty feature vectors all
three similarity functions return 0.0 through their guards. -/
theorem C8_witness :
    cosine_similarity [] [] = 0 ∧ pearson_correlation [] [] = 0 ∧
    cosine_similarity_features [] [] = 0 :=
  ⟨(C8_similarity_division_guards [] [] [] []).1 rfl,
   (C8_similarity_division_guards [] [] [] []).2.2.1 (by decide),
   (C8_similarity_division_guards [] [] [] []).2.2.2.2.1 rfl⟩

/-- Helper: a list of non-negative rationals summing to zero is pointwise
zero. -/
theorem list_sum_eq_zero_nonneg {l : List ℚ} (h0 : ∀ x ∈ l, 0 ≤ x) (hs : l.sum = 0) :
    ∀ x ∈ l, x = 0 := by
  induction l with
  | nil => intro x hx; cases hx
  | cons a l ih =>
    have ha : 0 ≤ a := h0 a (List.mem_cons_self a l)
    have hl : 0 ≤ l.sum := List.sum_nonneg (fun x hx => h0 x (List.mem_cons_of_mem a hx))
    rw [List.sum_cons] at hs
    have ha0 : a = 0 := by linarith
    have hl0 : l.sum = 0 := by linarith
    intro x hx
    rcases List.mem_cons.mp hx with h | h
    · rw [h, ha0]
    · exact ih (fun y hy => h0 y (List.mem_cons_of_mem a hy)) hl0 x h

/-- C4, amended: when two rating maps assign identical values to each of
their at-least-two common keys AND those common values are not all equal,
Pearson returns exactly 1.0; the variance hypothesis is what the original
claim is missing (see `C4_counterexample`). -/
theorem C4_pearson_identical_values (r1 r2 : RMap)
    (hEq : ∀ k ∈ commonKeys r1 r2, getDA r1 k 0 = getDA r2 k 0)
    (hLen : 2 ≤ (commonKeys r1 r2).length)
    (hVar : ∃ i ∈ commonKeys r1 r2, ∃ j ∈ commonKeys r1 r2,
      getDA r1 i 0 ≠ getDA r1 j 0) :
    pearson_correlation r1 r2 = 1 := by
  have hm : pearsonMean r2 (commonKeys r1 r2) = pearsonMean r1 (commonKeys r1 r2) := by
    unfold pearsonMean
    congr 2
    exact List.map_congr_left (fun k hk => (hEq k hk).symm)
  have hssq : pearsonSumSq r2 (commonKeys r1 r2) = pearsonSumSq r1 (commonKeys r1 r2) := by
    unfold pearsonSumSq
    rw [hm]
    congr 1
    exact List.map_congr_left (fun k hk => by rw [hEq k hk])
  have hnum : pearsonNum r1 r2 (commonKeys r1 r2) = pearsonSumSq r1 (commonKeys r1 r2) := by
    unfold pearsonNum pearsonSumSq
    rw [hm]
    apply congrArg List.sum
    apply List.map_congr_left
    intro k hk
    rw [← hEq k hk, sq]
  have hS0 : 0 ≤ pearsonSumSq r1 (commonKeys r1 r2) := by
    unfold pearsonSumSq
    apply List.sum_nonneg
    intro x hx
    rcases List.mem_map.mp hx with ⟨k, hk, rfl⟩
    positivity
  have hSne : pearsonSumSq r1 (commonKeys r1 r2) ≠ 0 := by
    intro hz
    obtain ⟨i, hi, j, hj, hij⟩ := hVar
    have hall := list_sum_eq_zero_nonneg
      (l := (commonKeys r1 r2).map
        (fun i => (getDA r1 i 0 - pearsonMean r1 (commonKeys r1 r2)) ^ 2))
      (fun x hx => by
        rcases List.mem_map.mp hx with ⟨k, hk, rfl⟩
        positivity)
      hz
    have hi0 : getDA r1 i 0 = pearsonMean r1 (commonKeys r1 r2) := by
      have h2 := hall _ (List.mem_map_of_mem _ hi)
      have h3 := (pow_eq_zero_iff two_ne_zero).mp h2
      linarith [sub_eq_zero.mp h3]
    have hj0 : getDA r1 j 0 = pearsonMean r1 (commonKeys r1 r2) := by
      have h2 := hall _ (List.mem_map_of_mem _ hj)
      have h3 := (pow_eq_zero_iff two_ne_zero).mp h2
      linarith [sub_eq_zero.mp h3]
    exact hij (hi0.trans hj0.symm)
  have hden : pearsonDenom r1 r2 = ((pearsonSumSq r1 (commonKeys r1 r2) : ℚ) : ℝ) := by
    unfold pearsonDenom
    rw [hssq]
    push_cast
    exact Real.sqrt_mul_self (by exact_mod_cast hS0)
  have hdenne : pearsonDenom r1 r2 ≠ 0 := by
    rw [hden]
    exact_mod_cast hSne
  rw [pearson_correlation, if_neg (not_lt.mpr hLen), if_neg hdenne, hnum, hden]
  rw [div_self]
  exact_mod_cast hSne

/-- C4, witness: the map `{1: 5, 2: 4}` against itself has identical,
non-constant common values, and Pearson indeed returns 1.0. -/
theorem C4_witness : pearson_correlation [(1,5),(2,4)] [(1,5),(2,4)] = 1 :=
  C4_pearson_identical_values [(1,5),(2,4)] [(1,5),(2,4)]
    (fun k _ => rfl)
    (by decide)
    ⟨1, by decide, 2, by decide, by norm_num [getDA, lookupA]⟩

/-- Helper: dict assignment makes the key read back the assigned value. -/
theorem lookupA_upsertA_self {κ α : Type} [DecidableEq κ] (l : List (κ × α)) (k : κ) (v : α) :
    lookupA (upsertA l k v) k = some v := by
  induction l with
  | nil => simp [upsertA, lookupA]
  | cons e rest ih =>
    obtain ⟨k1, v1⟩ := e
    by_cases h : k1 = k
    · simp [upsertA, h, lookupA]
    · simp [upsertA, h, lookupA, ih]

/-- Helper: dict assignment leaves other keys unchanged. -/
theorem lookupA_upsertA_ne {κ α : Type} [DecidableEq κ] (l : List (κ × α)) (k k2 : κ) (v : α)
    (h : k ≠ k2) : lookupA (upsertA l k v) k2 = lookupA l k2 := by
  induction l with
  | nil => simp [upsertA, lookupA, h]
  | cons e rest ih =>
    obtain ⟨k1, v1⟩ := e
    by_cases h1 : k1 = k
    · subst h1
      simp [upsertA, lookupA, h]
    · simp [upsertA, h1, lookupA, ih]

/-- Helper: a fold of assignments at keys all different from `K` leaves the
lookup at `K` unchanged. -/
theorem lookupA_foldl_upsertA_ne {κ α β : Type} [DecidableEq κ] (f : β → κ) (v : β → α)
    (l : List β) (acc : List (κ × α)) (K : κ) (h : ∀ b ∈ l, f b ≠ K) :
    lookupA (l.foldl (fun a b => upsertA a (f b) (v b)) acc) K = lookupA acc K := by
  induction l generalizing acc with
  | nil => rfl
  | cons b l ih =>
    rw [List.foldl_cons, ih _ (fun x hx => h x (List.mem_cons_of_mem b hx))]
    exact lookupA_upsertA_ne _ _ _ _ (h b (List.mem_cons_self b l))

/-- Helper: two feature keys built from prefixes with different first
characters are never equal, whatever the suffixes. -/
theorem append_key_ne (p q s t : String) {c1 c2 : Char} {l1 l2 : List Char}
    (hp : p.data = c1 :: l1) (hq : q.data = c2 :: l2) (hc : c1 ≠ c2) :
    p ++ s ≠ q ++ t := by
  intro h
  have hd := congrArg String.data h
  rw [String.data_append, String.data_append, hp, hq] at hd
  simp only [List.cons_append, List.cons.injEq] at hd
  exact hc hd.1

/-- Helper: appending to a fixed prefix is injective. -/
theorem append_str_left_cancel {p a b : String} (h : p ++ a = p ++ b) : a = b := by
  have hd := congrArg String.data h
  simp only [String.data_append] at hd
  exact String.ext (List.append_cancel_left hd)

/-- Helper: the genre/tag/type portion of a feature vector holds no
`category:`-prefixed key. -/
theorem lookup_cat_none_base (gs ts : List String) (ty cat : String) :
    lookupA (upsertA (ts.foldl (fun acc t => upsertA acc ("tag:" ++ t) 1)
        (gs.foldl (fun acc g => upsertA acc ("genre:" ++ g) 1) ([] : FMap)))
      ("type:" ++ ty) 1) ("category:" ++ cat) = none := by
  rw [lookupA_upsertA_ne _ _ _ _ (append_key_ne _ _ _ _ rfl rfl (by decide))]
  rw [lookupA_foldl_upsertA_ne _ _ _ _ _
    (fun t _ => append_key_ne _ _ _ _ rfl rfl (by decide))]
  rw [lookupA_foldl_upsertA_ne _ _ _ _ _
    (fun g _ => append_key_ne _ _ _ _ rfl rfl (by decide))]
  rfl

/-- C6, amended: for a product item, the feature `category:<c>` (weight
1.0) is present exactly when the item's *top-level* `category` field holds
the non-empty string `c`; the metadata map's category — where the spec's
data model places it — is never consulted (see `C6_counterexample`). -/
theorem C6_product_category_from_top_level (item : Item) (cat : String)
    (hP : item.item_type = "product") :
    lookupA (extract_item_features item) ("category:" ++ cat) = some 1 ↔
      (item.category = some cat ∧ cat ≠ "") := by
  rw [extract_item_features, hP]
  rw [if_neg (show ¬ ("product" : String) = "movie" by decide)]
  rw [if_pos rfl]
  rw [if_neg (show ¬ ("product" : String) = "book" by decide)]
  by_cases htr : truthyStr item.category = true
  · rw [if_pos htr]
    cases hcat : item.category with
    | none => rw [hcat] at htr; simp [truthyStr] at htr
    | some c0 =>
      rw [hcat] at htr
      have hc0 : c0 ≠ "" := by
        intro he
        rw [he] at htr
        exact absurd htr (by decide)
      simp only [Option.getD_some]
      by_cases hcc : cat = c0
      · subst hcc
        rw [lookupA_upsertA_self]
        exact ⟨fun _ => ⟨rfl, hc0⟩, fun _ => rfl⟩
      · rw [lookupA_upsertA_ne _ _ _ _
          (fun h => hcc (append_str_left_cancel h).symm)]
        split
        · rw [lookupA_upsertA_ne _ _ _ _
            (append_key_ne "brand:" "category:" _ _ rfl rfl (by decide)),
            lookup_cat_none_base _ _ _ _]
          simp
          intro h
          exact absurd h.symm hcc
        · rw [lookup_cat_none_base _ _ _ _]
          simp
          intro h
          exact absurd h.symm hcc
  · rw [if_neg htr]
    have hrhs : ¬ (item.category = some cat ∧ cat ≠ "") := by
      rintro ⟨hcat, hne⟩
      rw [hcat] at htr
      apply htr
      have hne2 : ¬ cat.isEmpty = true := by
        intro he
        exact hne ((String.isEmpty_iff _).mp he)
      simp [truthyStr, hne2]
    split
    · rw [lookupA_upsertA_ne _ _ _ _
        (append_key_ne "brand:" "category:" _ _ rfl rfl (by decide)),
        lookup_cat_none_base _ _ _ _]
      simp [hrhs]
    · rw [lookup_cat_none_base _ _ _ _]
      simp [hrhs]

/-- C6, counterexample: a product whose category sits only in the metadata
map yields no `category:` feature, while a product with a top-level
category and no metadata category yields the feature — so presence in the
metadata map (the claim's reading) neither suffices nor is needed. -/
theorem C6_counterexample :
    lookupA (extract_item_features productMetaCategory) "category:gadgets" = none ∧
    productMetaCategory.metadata.category = some "gadgets" ∧
    lookupA (extract_item_features productTopCategory) "category:gadgets" = some 1 ∧
    productTopCategory.metadata.category = none :=
  ⟨rfl, rfl, rfl, rfl⟩

/-- C6, witness: the amended rule applied at a concrete product with
top-level category `gadgets`. -/
theorem C6_witness :
    lookupA (extract_item_features productTopCategory) ("category:" ++ "gadgets") = some 1 :=
  (C6_product_category_from_top_level productTopCategory "gadgets" rfl).mpr
    ⟨rfl, by decide⟩

/-- Helper: membership through a descending insertion. -/
theorem mem_insertDescBy {α β : Type} [LinearOrder β] (key : α → β) (a x : α) (l : List α) :
    x ∈ insertDescBy key a l ↔ x = a ∨ x ∈ l := by
  induction l with
  | nil => simp [insertDescBy]
  | cons y ys ih =>
    rw [insertDescBy]
    split
    · simp [ih]
      tauto
    · simp [List.mem_cons]

/-- Helper: the stable sort has the same members as its input. -/
theorem mem_sortDescBy {α β : Type} [LinearOrder β] (key : α → β) (l : List α) (x : α) :
    x ∈ sortDescBy key l ↔ x ∈ l := by
  induction l with
  | nil => simp [sortDescBy]
  | cons y ys ih =>
    rw [sortDescBy, mem_insertDescBy]
    simp [ih]

/-- Helper: a fold that at each step either keeps the accumulator or
appends elements satisfying `P b` only produces accumulator members or
`P`-justified elements. -/
theorem mem_foldl_append {β γ : Type} (f : List γ → β → List γ) (P : β → γ → Prop)
    (hstep : ∀ acc b x, x ∈ f acc b → x ∈ acc ∨ P b x) :
    ∀ (l : List β) (init : List γ) (x : γ), x ∈ l.foldl f init → x ∈ init ∨ ∃ b ∈ l, P b x := by
  intro l
  induction l with
  | nil => intro init x hx; exact Or.inl hx
  | cons b l ih =>
    intro init x hx
    rw [List.foldl_cons] at hx
    rcases ih _ _ hx with h | ⟨b2, hb2, hP⟩
    · rcases hstep init b x h with h2 | hP
      · exact Or.inl h2
      · exact Or.inr ⟨b, List.mem_cons_self _ _, hP⟩
    · exact Or.inr ⟨b2, List.mem_cons_of_mem _ hb2, hP⟩

/-- C10: `find_similar_items` returns the empty list on a malformed id and
on an id with no stored item, and every returned record snapshots an item
of the same `item_type` as the query item with an identifier different
from the query's. -/
theorem C10_find_similar_items_safe (db : DB) (idStr : IdStr) (limit : Nat) (minSim : ℝ) :
    (isValidObjectId idStr = false → find_similar_items db idStr limit minSim = []) ∧
    (∀ n, idStr = IdStr.valid n → db.items.find? (fun it => it.id == n) = none →
      find_similar_items db idStr limit minSim = []) ∧
    (∀ n item, idStr = IdStr.valid n → db.items.find? (fun it => it.id == n) = some item →
      ∀ rec ∈ find_similar_items db idStr limit minSim,
        rec.item.item_type = item.item_type ∧ rec.itemId ≠ n ∧ rec.item.id ≠ n) := by
  refine ⟨?_, ?_, ?_⟩
  · intro h
    cases idStr with
    | invalid s => rfl
    | valid n => simp [isValidObjectId] at h
  · intro n heq hf
    subst heq
    simp only [find_similar_items, hf]
  · intro n item heq hf rec hrec
    subst heq
    simp only [find_similar_items, hf] at hrec
    have h1 : rec ∈ sortDescBy RecOut.score
        ((db.items.filter (fun it => it.item_type == item.item_type && !(it.id == n))).foldl
          (fun acc it =>
            let s := cosine_similarity_features (extract_item_features item)
              (extract_item_features it)
            if minSim ≤ s then acc ++ [⟨it.id, it, s, "content_based"⟩] else acc)
          ([] : List RecOut)) := List.mem_of_mem_take hrec
    rw [mem_sortDescBy] at h1
    have h2 := mem_foldl_append
      (fun acc it =>
        let s := cosine_similarity_features (extract_item_features item)
          (extract_item_features it)
        if minSim ≤ s then acc ++ [⟨it.id, it, s, "content_based"⟩] else acc)
      (fun it x => x.item = it ∧ x.itemId = it.id)
      (by
        intro acc b x hx
        simp only at hx
        split at hx
        · rcases List.mem_append.mp hx with h | h
          · exact Or.inl h
          · rcases List.mem_singleton.mp h with rfl
            exact Or.inr ⟨rfl, rfl⟩
        · exact Or.inl hx)
      _ _ rec h1
    rcases h2 with h | ⟨it, hit, hitem, hid⟩
    · cases h
    · have hmem := List.mem_filter.mp hit
      have hcond := hmem.2
      rw [Bool.and_eq_true, beq_iff_eq, Bool.not_eq_eq_eq_not] at hcond
      have hty : it.item_type = item.item_type := hcond.1
      have hne : it.id ≠ n := by
        intro he
        have := hcond.2
        rw [he] at this
        simp at this
      rw [hitem, hid]
      exact ⟨hty, hne, hne⟩

/-- C10, witness: a malformed identifier yields the empty list on a
concrete store. -/
theorem C10_witness :
    find_similar_items dbContentOnly (.invalid "not-an-objectid") 10 (3/10) = [] :=
  (C10_find_similar_items_safe dbContentOnly (.invalid "not-an-objectid") 10 (3/10)).1 rfl

theorem lookupA_updA_self {κ α : Type} [DecidableEq κ] (l : List (κ × α)) (k : κ) (d : α)
    (f : α → α) : lookupA (updA l k d f) k = some (f ((lookupA l k).getD d)) := by
  induction l with
  | nil => simp [updA, lookupA]
  | cons e rest ih =>
    obtain ⟨k1, v1⟩ := e
    by_cases h : k1 = k
    · subst h
      simp [updA, lookupA]
    · simp [updA, h, lookupA, ih]

theorem lookupA_updA_ne {κ α : Type} [DecidableEq κ] (l : List (κ × α)) (k k2 : κ) (d : α)
    (f : α → α) (h : k ≠ k2) : lookupA (updA l k d f) k2 = lookupA l k2 := by
  induction l with
  | nil => simp [updA, lookupA, h]
  | cons e rest ih =>
    obtain ⟨k1, v1⟩ := e
    by_cases h1 : k1 = k
    · subst h1
      simp [updA, lookupA, h]
    · simp [updA, h1, lookupA, ih]

theorem mem_keysA_updA {κ α : Type} [DecidableEq κ] (l : List (κ × α)) (k a : κ) (d : α)
    (f : α → α) : a ∈ keysA (updA l k d f) ↔ a ∈ keysA l ∨ a = k := by
  induction l with
  | nil => simp [updA, keysA]
  | cons e rest ih =>
    obtain ⟨k1, v1⟩ := e
    by_cases h1 : k1 = k
    · subst h1
      simp [updA, keysA]
      tauto
    · simp [updA, h1, keysA] at ih ⊢
      tauto

theorem keysA_updA {κ α : Type} [DecidableEq κ] (l : List (κ × α)) (k : κ) (d : α)
    (f : α → α) :
    keysA (updA l k d f) = if k ∈ keysA l then keysA l else keysA l ++ [k] := by
  induction l with
  | nil => simp [updA, keysA]
  | cons e rest ih =>
    obtain ⟨k1, v1⟩ := e
    by_cases h1 : k1 = k
    · subst h1
      simp [updA, keysA]
    · rw [show updA ((k1, v1) :: rest) k d f = (k1, v1) :: updA rest k d f from by
        simp [updA, h1]]
      have h2 : keysA ((k1, v1) :: updA rest k d f) = k1 :: keysA (updA rest k d f) := rfl
      have h3 : keysA ((k1, v1) :: rest) = k1 :: keysA rest := rfl
      rw [h2, h3, ih]
      by_cases hk : k ∈ keysA rest
      · rw [if_pos hk, if_pos (List.mem_cons_of_mem _ hk)]
      · have hnm : ¬ k ∈ k1 :: keysA rest := by
          intro h
          rcases List.mem_cons.mp h with h | h
          · exact h1 h.symm
          · exact hk h
        rw [if_neg hk, if_neg hnm, List.cons_append]

theorem keysA_upsertA {κ α : Type} [DecidableEq κ] (l : List (κ × α)) (k : κ) (v : α) :
    keysA (upsertA l k v) = if k ∈ keysA l then keysA l else keysA l ++ [k] := by
  induction l with
  | nil => simp [upsertA, keysA]
  | cons e rest ih =>
    obtain ⟨k1, v1⟩ := e
    by_cases h1 : k1 = k
    · subst h1
      simp [upsertA, keysA]
    · rw [show upsertA ((k1, v1) :: rest) k v = (k1, v1) :: upsertA rest k v from by
        simp [upsertA, h1]]
      have h2 : keysA ((k1, v1) :: upsertA rest k v) = k1 :: keysA (upsertA rest k v) := rfl
      have h3 : keysA ((k1, v1) :: rest) = k1 :: keysA rest := rfl
      rw [h2, h3, ih]
      by_cases hk : k ∈ keysA rest
      · rw [if_pos hk, if_pos (List.mem_cons_of_mem _ hk)]
      · have hnm : ¬ k ∈ k1 :: keysA rest := by
          intro h
          rcases List.mem_cons.mp h with h | h
          · exact h1 h.symm
          · exact hk h
        rw [if_neg hk, if_neg hnm, List.cons_append]

theorem mem_keysA_upsertA {κ α : Type} [DecidableEq κ] (l : List (κ × α)) (k a : κ) (v : α) :
    a ∈ keysA (upsertA l k v) ↔ a ∈ keysA l ∨ a = k := by
  rw [keysA_upsertA]
  split
  · constructor
    · exact Or.inl
    · rintro (h | rfl)
      · exact h
      · assumption
  · simp [List.mem_append]

theorem nodup_keysA_updA {κ α : Type} [DecidableEq κ] (l : List (κ × α)) (k : κ) (d : α)
    (f : α → α) (h : (keysA l).Nodup) : (keysA (updA l k d f)).Nodup := by
  rw [keysA_updA]
  split
  · exact h
  · rename_i hk
    simp [List.nodup_append, h, hk]

theorem nodup_keysA_upsertA {κ α : Type} [DecidableEq κ] (l : List (κ × α)) (k : κ) (v : α)
    (h : (keysA l).Nodup) : (keysA (upsertA l k v)).Nodup := by
  rw [keysA_upsertA]
  split
  · exact h
  · rename_i hk
    simp [List.nodup_append, h, hk]

theorem nodup_keys_user_dict (db : DB) (u : String) :
    (keysA (get_user_ratings_dict db u)).Nodup := by
  rw [get_user_ratings_dict]
  generalize (db.ratings.filter (fun r => r.userId == u)) = l
  have h : ∀ (l : List Rating) (acc : RMap), (keysA acc).Nodup →
      (keysA (l.foldl (fun acc r => upsertA acc r.itemId r.rating) acc)).Nodup := by
    intro l
    induction l with
    | nil => intro acc h; exact h
    | cons r l ih =>
      intro acc h
      rw [List.foldl_cons]
      exact ih _ (nodup_keysA_upsertA _ _ _ h)
  exact h l [] (by simp [keysA])

theorem mem_keys_foldl_upsertA {κ α β : Type} [DecidableEq κ] (key : β → κ) (val : β → α)
    (l : List β) (acc : List (κ × α)) (k : κ) :
    k ∈ keysA (l.foldl (fun a r => upsertA a (key r) (val r)) acc) ↔
      k ∈ keysA acc ∨ ∃ r ∈ l, key r = k := by
  induction l generalizing acc with
  | nil => simp
  | cons r l ih =>
    rw [List.foldl_cons, ih]
    rw [mem_keysA_upsertA]
    constructor
    · rintro (⟨h | h⟩ | h)
      · exact Or.inl h
      · exact Or.inr ⟨r, List.mem_cons_self _ _, h.symm⟩
      · rcases h with ⟨r2, hr2, hk⟩
        exact Or.inr ⟨r2, List.mem_cons_of_mem _ hr2, hk⟩
    · rintro (h | ⟨r2, h2, hk⟩)
      · exact Or.inl (Or.inl h)
      · rcases List.mem_cons.mp h2 with h3 | h3
        · subst h3
          exact Or.inl (Or.inr hk.symm)
        · exact Or.inr ⟨r2, h3, hk⟩

theorem mem_keys_user_dict (db : DB) (u : String) (k : Nat) :
    k ∈ keysA (get_user_ratings_dict db u) ↔
      ∃ r ∈ db.ratings, r.userId = u ∧ r.itemId = k := by
  rw [get_user_ratings_dict, mem_keys_foldl_upsertA]
  simp [keysA, List.mem_filter]
  constructor
  · rintro ⟨r, ⟨hr, hu⟩, hk⟩
    exact ⟨r, hr, by simpa using hu, hk⟩
  · rintro ⟨r, hr, hu, hk⟩
    exact ⟨r, ⟨hr, by simpa using hu⟩, hk⟩

theorem lookup_foldl_upsertA_source {κ α β : Type} [DecidableEq κ] (key : β → κ) (val : β → α)
    (l : List β) (acc : List (κ × α)) (k : κ) (v : α)
    (h : lookupA (l.foldl (fun a r => upsertA a (key r) (val r)) acc) k = some v) :
    (∃ r ∈ l, key r = k ∧ val r = v) ∨ lookupA acc k = some v := by
  induction l generalizing acc with
  | nil => exact Or.inr h
  | cons r l ih =>
    rw [List.foldl_cons] at h
    rcases ih _ h with ⟨r2, hr2, hk, hv⟩ | h2
    · exact Or.inl ⟨r2, List.mem_cons_of_mem _ hr2, hk, hv⟩
    · by_cases hkr : key r = k
      · rw [← hkr] at h2
        rw [lookupA_upsertA_self] at h2
        exact Or.inl ⟨r, List.mem_cons_self _ _, hkr, by injection h2⟩
      · rw [lookupA_upsertA_ne _ _ _ _ hkr] at h2
        exact Or.inr h2

theorem lookupA_mem_of_nodup {κ α : Type} [DecidableEq κ] (l : List (κ × α)) (e : κ × α)
    (he : e ∈ l) (hnd : (keysA l).Nodup) : lookupA l e.1 = some e.2 := by
  induction l with
  | nil => cases he
  | cons p rest ih =>
    obtain ⟨k1, v1⟩ := p
    rcases List.mem_cons.mp he with rfl | hmem
    · simp [lookupA]
    · have hk : k1 ≠ e.1 := by
        intro hkk
        have : e.1 ∈ keysA rest := List.mem_map_of_mem Prod.fst hmem
        rw [← hkk] at this
        simp [keysA] at hnd
        exact absurd this (by simpa [keysA] using hnd.1)
      simp only [lookupA, if_neg hk]
      exact ih hmem (by simp [keysA] at hnd ⊢; exact hnd.2)

theorem nodup_foldl_preserve {κ α β : Type} [DecidableEq κ]
    (f : List (κ × α) → β → List (κ × α))
    (hf : ∀ acc b, (keysA acc).Nodup → (keysA (f acc b)).Nodup) :
    ∀ (l : List β) (acc : List (κ × α)), (keysA acc).Nodup → (keysA (l.foldl f acc)).Nodup := by
  intro l
  induction l with
  | nil => intro acc h; exact h
  | cons b l ih =>
    intro acc h
    rw [List.foldl_cons]
    exact ih _ (hf acc b h)

theorem collab_inner_nokey (rated : List Nat) (s : ℝ) (entries : List (Nat × ℚ))
    (acc : List (Nat × (ℝ × Nat))) (i : Nat) (hno : i ∉ keysA entries) :
    lookupA (entries.foldl
      (fun acc2 q =>
        if q.1 ∈ rated then acc2
        else updA acc2 q.1 ((0 : ℝ), (0 : Nat)) (fun sc => (sc.1 + s * (q.2 : ℝ), sc.2 + 1)))
      acc) i = lookupA acc i := by
  induction entries generalizing acc with
  | nil => rfl
  | cons q rest ih =>
    have hqi : q.1 ≠ i := by
      intro h
      exact hno (by rw [← h]; exact List.mem_map_of_mem Prod.fst (List.mem_cons_self q rest))
    rw [List.foldl_cons, ih _ (fun h => hno (List.mem_cons_of_mem _ (by simpa [keysA] using h)))]
    split
    · rfl
    · exact lookupA_updA_ne _ _ _ _ _ hqi

theorem collab_inner_rated (rated : List Nat) (s : ℝ) (entries : List (Nat × ℚ))
    (acc : List (Nat × (ℝ × Nat))) (i : Nat) (hi : i ∈ rated) :
    lookupA (entries.foldl
      (fun acc2 q =>
        if q.1 ∈ rated then acc2
        else updA acc2 q.1 ((0 : ℝ), (0 : Nat)) (fun sc => (sc.1 + s * (q.2 : ℝ), sc.2 + 1)))
      acc) i = lookupA acc i := by
  induction entries generalizing acc with
  | nil => rfl
  | cons q rest ih =>
    rw [List.foldl_cons, ih]
    split
    · rfl
    · rename_i hq
      exact lookupA_updA_ne _ _ _ _ _ (fun h => hq (h ▸ hi))

theorem collab_inner_lookup (rated : List Nat) (s : ℝ) (entries : List (Nat × ℚ))
    (hnd : (keysA entries).Nodup) (acc : List (Nat × (ℝ × Nat))) (i : Nat) (hi : i ∉ rated) :
    lookupA (entries.foldl
      (fun acc2 q =>
        if q.1 ∈ rated then acc2
        else updA acc2 q.1 ((0 : ℝ), (0 : Nat)) (fun sc => (sc.1 + s * (q.2 : ℝ), sc.2 + 1)))
      acc) i =
    match lookupA entries i with
    | none => lookupA acc i
    | some v => some (((lookupA acc i).getD (0, 0)).1 + s * (v : ℝ),
                      ((lookupA acc i).getD (0, 0)).2 + 1) := by
  induction entries generalizing acc with
  | nil => rfl
  | cons q rest ih =>
    have hnd1 : q.1 ∉ keysA rest ∧ (keysA rest).Nodup := by
      have h0 : keysA (q :: rest) = q.1 :: keysA rest := rfl
      rw [h0, List.nodup_cons] at hnd
      exact hnd
    rw [List.foldl_cons]
    by_cases hqi : q.1 = i
    · have hnot : ¬ q.1 ∈ rated := by rw [hqi]; exact hi
      rw [show (if q.1 ∈ rated then acc
          else updA acc q.1 ((0 : ℝ), (0 : Nat))
            (fun sc => (sc.1 + s * (q.2 : ℝ), sc.2 + 1))) =
          updA acc q.1 ((0 : ℝ), (0 : Nat))
            (fun sc => (sc.1 + s * (q.2 : ℝ), sc.2 + 1)) from if_neg hnot]
      have hrest : i ∉ keysA rest := by
        rw [← hqi]
        exact hnd1.1
      rw [collab_inner_nokey _ _ _ _ _ hrest]
      rw [hqi, lookupA_updA_self]
      simp [lookupA, hqi]
    · rw [show lookupA (q :: rest) i = lookupA rest i from by simp [lookupA, hqi]]
      have hnd2 : (keysA rest).Nodup := hnd1.2
      split
      · rename_i hq
        exact (ih hnd2 acc).trans rfl
      · rename_i hq
        rw [ih hnd2 _]
        have hlk : lookupA (updA acc q.1 ((0 : ℝ), (0 : Nat))
            (fun sc => (sc.1 + s * (q.2 : ℝ), sc.2 + 1))) i = lookupA acc i :=
          lookupA_updA_ne _ _ _ _ _ hqi
        rw [hlk]

theorem collab_outer_rated (db : DB) (u : String) (minSim : ℝ) (ns : List (String × ℝ))
    (acc : List (Nat × (ℝ × Nat))) (i : Nat)
    (hi : i ∈ keysA (get_user_ratings_dict db u)) :
    lookupA (ns.foldl
      (fun acc p =>
        if p.2 < minSim then acc
        else (get_user_ratings_dict db p.1).foldl
          (fun acc2 q =>
            if q.1 ∈ keysA (get_user_ratings_dict db u) then acc2
            else updA acc2 q.1 ((0 : ℝ), (0 : Nat))
              (fun sc => (sc.1 + p.2 * (q.2 : ℝ), sc.2 + 1)))
          acc)
      acc) i = lookupA acc i := by
  induction ns generalizing acc with
  | nil => rfl
  | cons p ns ih =>
    rw [List.foldl_cons, ih]
    split
    · rfl
    · exact collab_inner_rated _ _ _ _ _ hi

theorem collab_outer_lookup (db : DB) (u : String) (minSim : ℝ) (ns : List (String × ℝ))
    (acc : List (Nat × (ℝ × Nat))) (i : Nat)
    (hi : i ∉ keysA (get_user_ratings_dict db u)) :
    lookupA (ns.foldl
      (fun acc p =>
        if p.2 < minSim then acc
        else (get_user_ratings_dict db p.1).foldl
          (fun acc2 q =>
            if q.1 ∈ keysA (get_user_ratings_dict db u) then acc2
            else updA acc2 q.1 ((0 : ℝ), (0 : Nat))
              (fun sc => (sc.1 + p.2 * (q.2 : ℝ), sc.2 + 1)))
          acc)
      acc) i =
    (if (ns.filter (fun p =>
          decide (minSim ≤ p.2) && hasKey (get_user_ratings_dict db p.1) i)).length = 0
     then lookupA acc i
     else some (((lookupA acc i).getD (0, 0)).1 +
        ((ns.filter (fun p =>
            decide (minSim ≤ p.2) && hasKey (get_user_ratings_dict db p.1) i)).map
          (fun p => p.2 * ((getDA (get_user_ratings_dict db p.1) i 0 : ℚ) : ℝ))).sum,
        ((lookupA acc i).getD (0, 0)).2 +
        (ns.filter (fun p =>
            decide (minSim ≤ p.2) && hasKey (get_user_ratings_dict db p.1) i)).length)) := by
  induction ns generalizing acc with
  | nil => simp [List.filter_nil]
  | cons p ns ih =>
    rw [List.foldl_cons]
    by_cases hlt : p.2 < minSim
    · have hfc : (List.filter (fun p =>
          decide (minSim ≤ p.2) && hasKey (get_user_ratings_dict db p.1) i) (p :: ns)) =
          List.filter (fun p =>
            decide (minSim ≤ p.2) && hasKey (get_user_ratings_dict db p.1) i) ns := by
        rw [List.filter_cons]
        simp [not_le.mpr hlt]
      rw [hfc, if_pos hlt]
      exact ih acc
    · rw [if_neg hlt]
      by_cases hk : hasKey (get_user_ratings_dict db p.1) i = true
      · have hfc : (List.filter (fun p =>
            decide (minSim ≤ p.2) && hasKey (get_user_ratings_dict db p.1) i) (p :: ns)) =
            p :: List.filter (fun p =>
              decide (minSim ≤ p.2) && hasKey (get_user_ratings_dict db p.1) i) ns := by
          rw [List.filter_cons]
          simp [not_lt.mp hlt, hk]
        rw [hfc]
        have hvs : lookupA (get_user_ratings_dict db p.1) i =
            some (getDA (get_user_ratings_dict db p.1) i 0) := by
          rw [hasKey] at hk
          rcases Option.isSome_iff_exists.mp hk with ⟨v, hv⟩
          rw [getDA, hv]
          rfl
        have hinner := collab_inner_lookup (keysA (get_user_ratings_dict db u)) p.2
          (get_user_ratings_dict db p.1) (nodup_keys_user_dict db p.1) acc i hi
        rw [hvs] at hinner
        rw [ih _]
        rw [hinner]
        simp only [List.length_cons, List.map_cons, List.sum_cons, Option.getD_some]
        split
        · rename_i hlen
          rw [List.length_eq_zero.mp hlen]
          simp only [List.map_nil, List.sum_nil, List.length_nil]
          rw [if_neg (by omega : ¬ (0 + 1 : Nat) = 0)]
          simp only [Option.some.injEq, Prod.mk.injEq]
          constructor
          · ring
          · ring
        · rename_i hlen
          rw [if_neg (by omega)]
          simp only [Option.some.injEq, Prod.mk.injEq]
          constructor
          · ring
          · ring
      · have hfc : (List.filter (fun p =>
            decide (minSim ≤ p.2) && hasKey (get_user_ratings_dict db p.1) i) (p :: ns)) =
            List.filter (fun p =>
              decide (minSim ≤ p.2) && hasKey (get_user_ratings_dict db p.1) i) ns := by
          rw [List.filter_cons]
          simp [hk]
        rw [hfc]
        have hnone : lookupA (get_user_ratings_dict db p.1) i = none := by
          rw [hasKey] at hk
          exact Option.not_isSome_iff_eq_none.mp (by simpa using hk)
        have hinner := collab_inner_lookup (keysA (get_user_ratings_dict db u)) p.2
          (get_user_ratings_dict db p.1) (nodup_keys_user_dict db p.1) acc i hi
        rw [hnone] at hinner
        rw [ih _, hinner]

/-- Helper: every collaborative recommendation concerns an item the user
has not rated, has at least one contributing neighbor, and scores the
contribution sum divided by the contributor count. -/
theorem collab_rec_spec (db : DB) (u : String) (limit : Nat) (minSim : ℝ) :
    ∀ rec ∈ generate_collaborative_recommendations db u limit minSim,
      rec.itemId ∉ keysA (get_user_ratings_dict db u) ∧
      0 < collabContribCount db u minSim rec.itemId ∧
      rec.score = collabContribSum db u minSim rec.itemId /
        (collabContribCount db u minSim rec.itemId : ℝ) := by
  intro rec hrec
  simp only [generate_collaborative_recommendations] at hrec
  split at hrec
  · cases hrec
  · rcases List.mem_filterMap.mp hrec with ⟨pr, hpr, hrender⟩
    have hpr2 := List.mem_of_mem_take hpr
    rw [mem_sortDescBy] at hpr2
    rcases List.mem_filterMap.mp hpr2 with ⟨e, he, hmk⟩
    have hcnt : 0 < e.2.2 := by
      by_contra h
      rw [if_neg h] at hmk
      cases hmk
    rw [if_pos hcnt] at hmk
    have hpr3 : pr = (e.1, e.2.1 / (e.2.2 : ℝ)) := by
      injection hmk with h1
      exact h1.symm
    have hnd : (keysA ((find_similar_users db u 3 50).foldl
        (fun acc p =>
          if p.2 < minSim then acc
          else (get_user_ratings_dict db p.1).foldl
            (fun acc2 q =>
              if q.1 ∈ keysA (get_user_ratings_dict db u) then acc2
              else updA acc2 q.1 ((0 : ℝ), (0 : Nat))
                (fun sc => (sc.1 + p.2 * (q.2 : ℝ), sc.2 + 1)))
            acc)
        [])).Nodup := by
      apply nodup_foldl_preserve
      · intro acc b hacc
        split
        · exact hacc
        · apply nodup_foldl_preserve
          · intro acc2 q hacc2
            split
            · exact hacc2
            · exact nodup_keysA_updA _ _ _ _ hacc2
          · exact hacc
      · simp [keysA]
    have hlk := lookupA_mem_of_nodup _ e he hnd
    have hi : e.1 ∉ keysA (get_user_ratings_dict db u) := by
      intro hmem
      rw [collab_outer_rated db u minSim _ _ _ hmem] at hlk
      cases hlk
    have hchar := collab_outer_lookup db u minSim (find_similar_users db u 3 50) [] e.1 hi
    rw [hchar] at hlk
    simp only [lookupA, Option.getD_none] at hlk
    split at hlk
    · cases hlk
    · rename_i hlen
      have he2 : e.2 = (0 + collabContribSum db u minSim e.1,
          0 + collabContribCount db u minSim e.1) := by
        injection hlk with h1
        exact h1.symm
      have hid : rec.itemId = e.1 ∧ rec.score = pr.2 := by
        rcases hfd : db.items.find? (fun it => it.id == pr.1) with _ | it
        · rw [hfd] at hrender
          cases hrender
        · rw [hfd] at hrender
          injection hrender with h2
          rw [← h2, hpr3]
          exact ⟨rfl, rfl⟩
      refine ⟨hid.1 ▸ hi, ?_, ?_⟩
      · rw [hid.1]
        have : e.2.2 = 0 + collabContribCount db u minSim e.1 := by rw [he2]
        omega
      · rw [hid.2, hpr3, hid.1]
        simp only [he2]
        rw [zero_add, Nat.zero_add]

/-- C7: only fetched neighbors passing min_similarity that rated the item
contribute, each contributing similarity * neighbor_rating once, and the
final score is the accumulated sum divided by the number of contributing
neighbors (an unweighted average, not a division by the sum of
similarities). -/
theorem C7_collaborative_score_formula (db : DB) (u : String) (limit : Nat) (minSim : ℝ) :
    ∀ rec ∈ generate_collaborative_recommendations db u limit minSim,
      rec.itemId ∉ keysA (get_user_ratings_dict db u) ∧
      0 < collabContribCount db u minSim rec.itemId ∧
      rec.score = collabContribSum db u minSim rec.itemId /
        (collabContribCount db u minSim rec.itemId : ℝ) :=
  collab_rec_spec db u limit minSim

/-- C9: neither the collaborative nor the content-based recommender ever
returns an item already rated by the requesting user. -/
theorem C9_never_recommends_rated_items (db : DB) (u : String) (limit : Nat) (minSim : ℝ) :
    (∀ rec ∈ generate_collaborative_recommendations db u limit minSim,
      ¬ ∃ r ∈ db.ratings, r.userId = u ∧ r.itemId = rec.itemId) ∧
    (∀ rec ∈ generate_content_based_recommendations db u limit minSim,
      ¬ ∃ r ∈ db.ratings, r.userId = u ∧ r.itemId = rec.itemId) := by
  constructor
  · intro rec hrec hex
    have h := (collab_rec_spec db u limit minSim rec hrec).1
    exact h ((mem_keys_user_dict db u rec.itemId).mpr hex)
  · intro rec hrec hex
    simp only [generate_content_based_recommendations] at hrec
    split at hrec
    · cases hrec
    · have h2 := List.mem_of_mem_take hrec
      rw [mem_sortDescBy] at h2
      have h3 := mem_foldl_append
        (fun acc it =>
          if it.id ∈ (ratingsOfUser db u).map Rating.itemId then acc
          else
            if minSim ≤ cosine_similarity_features (get_user_preferred_features db u 3)
                (extract_item_features it) then
              acc ++ [⟨it.id, it,
                cosine_similarity_features (get_user_preferred_features db u 3)
                  (extract_item_features it), "content_based"⟩]
            else acc)
        (fun it x => it.id ∉ (ratingsOfUser db u).map Rating.itemId ∧ x.itemId = it.id)
        (by
          intro acc b x hx
          dsimp only at hx
          split at hx
          · exact Or.inl hx
          · rename_i hnr2
            split at hx
            · rcases List.mem_append.mp hx with h | h
              · exact Or.inl h
              · rcases List.mem_singleton.mp h with rfl
                exact Or.inr ⟨hnr2, rfl⟩
            · exact Or.inl hx)
        _ _ rec h2
      rcases h3 with h | ⟨it, hit, hnr, hid⟩
      · cases h
      · apply hnr
        rcases hex with ⟨r, hr, hu, hi⟩
        rw [← hid, ← hi]
        apply List.mem_map_of_mem
        rw [ratingsOfUser, List.mem_filter]
        exact ⟨hr, by simpa using hu⟩

/-- Helper: the Pearson correlation of the two dbNeighbors users over
their three common items is exactly 1. -/
theorem dbNeighbors_pearson :
    pearson_correlation [(1,5),(2,4),(3,5)] [(1,5),(2,4),(3,5),(4,5)] = 1 := by
  have hc : commonKeys [(1,5),(2,4),(3,5)] [(1,5),(2,4),(3,5),(4,5)] = [1,2,3] := rfl
  have hd : pearsonDenom [(1,5),(2,4),(3,5)] [(1,5),(2,4),(3,5),(4,5)] = 2/3 := by
    have h1 : pearsonSumSq [(1,5),(2,4),(3,5)] [1,2,3] *
        pearsonSumSq [(1,5),(2,4),(3,5),(4,5)] [1,2,3] = 4/9 := by
      norm_num [pearsonSumSq, pearsonMean, getDA, lookupA]
    rw [pearsonDenom, hc, h1]
    rw [show (((4:ℚ)/9 : ℚ) : ℝ) = (2/3 : ℝ)^2 by norm_num]
    exact Real.sqrt_sq (by norm_num)
  have hn : pearsonNum [(1,5),(2,4),(3,5)] [(1,5),(2,4),(3,5),(4,5)] [1,2,3] = 2/3 := by
    norm_num [pearsonNum, pearsonMean, getDA, lookupA]
  rw [pearson_correlation, hc, hd, hn]
  norm_num

/-- Helper: on dbNeighbors, user B is the single similar user of A, with
similarity 1. -/
theorem dbNeighbors_fsu : find_similar_users dbNeighbors "A" 3 50 = [("B", 1)] := by
  have h1 : find_similar_users dbNeighbors "A" 3 50 =
      (sortDescBy (fun p => p.2)
        (if 0 < pearson_correlation [(1,5),(2,4),(3,5)] [(1,5),(2,4),(3,5),(4,5)] then
          [("B", pearson_correlation [(1,5),(2,4),(3,5)] [(1,5),(2,4),(3,5),(4,5)])]
        else [])).take 50 := rfl
  rw [h1, dbNeighbors_pearson, if_pos (by norm_num : (0:ℝ) < 1)]
  rfl

/-- Helper: on dbNeighbors, the collaborative recommender returns item 4
with score 5 to user A. -/
theorem dbNeighbors_collab_eval :
    generate_collaborative_recommendations dbNeighbors "A" 10 (3/10) =
      [⟨4, { id := 4, item_type := "movie" }, 5, "collaborative"⟩] := by
  have h1 : generate_collaborative_recommendations dbNeighbors "A" 10 (3/10) =
      [⟨4, { id := 4, item_type := "movie" },
        (0 + 1 * ((5:ℚ) : ℝ)) / ((1 : ℕ) : ℝ), "collaborative"⟩] := by
    simp only [generate_collaborative_recommendations, dbNeighbors_fsu]
    dsimp only [List.foldl_cons, List.foldl_nil]
    rw [if_neg (by norm_num : ¬ (1:ℝ) < (3/10 : ℝ))]
    rfl
  rw [h1]
  have h2 : (0 + 1 * ((5:ℚ) : ℝ)) / ((1 : ℕ) : ℝ) = 5 := by
    push_cast
    ring
  rw [h2]

/-- C7, witness: on dbNeighbors the returned record for item 4 satisfies
the score formula, with one contributing neighbor. -/
theorem C7_witness :
    (⟨4, { id := 4, item_type := "movie" }, 5, "collaborative"⟩ : RecOut)
      ∈ generate_collaborative_recommendations dbNeighbors "A" 10 (3/10) ∧
    0 < collabContribCount dbNeighbors "A" (3/10) 4 ∧
    (5 : ℝ) = collabContribSum dbNeighbors "A" (3/10) 4 /
      (collabContribCount dbNeighbors "A" (3/10) 4 : ℝ) := by
  have hmem : (⟨4, { id := 4, item_type := "movie" }, 5, "collaborative"⟩ : RecOut)
      ∈ generate_collaborative_recommendations dbNeighbors "A" 10 (3/10) := by
    rw [dbNeighbors_collab_eval]
    exact List.mem_singleton.mpr rfl
  have h := C7_collaborative_score_formula dbNeighbors "A" 10 (3/10) _ hmem
  exact ⟨hmem, h.2.1, h.2.2⟩

/-- C9, witness: on dbNeighbors the recommended item 4 was indeed never
rated by the requesting user A. -/
theorem C9_witness :
    (⟨4, { id := 4, item_type := "movie" }, 5, "collaborative"⟩ : RecOut)
      ∈ generate_collaborative_recommendations dbNeighbors "A" 10 (3/10) ∧
    ¬ ∃ r ∈ dbNeighbors.ratings, r.userId = "A" ∧ r.itemId = 4 := by
  have hmem : (⟨4, { id := 4, item_type := "movie" }, 5, "collaborative"⟩ : RecOut)
      ∈ generate_collaborative_recommendations dbNeighbors "A" 10 (3/10) := by
    rw [dbNeighbors_collab_eval]
    exact List.mem_singleton.mpr rfl
  exact ⟨hmem, (C9_never_recommends_rated_items dbNeighbors "A" 10 (3/10)).1 _ hmem⟩

/-- Helper: on dbContentOnly, the preferred-feature profile of user U is the
normalized genre and type features of the single rated movie. -/
theorem dbContentOnly_profile :
    get_user_preferred_features dbContentOnly "U" 3 = [("genre:g",1),("type:movie",1)] := by
  have step1 : get_user_preferred_features dbContentOnly "U" 3 =
      (if (0:ℚ) < ((([("genre:g", (0:ℚ) + 1*((5:ℚ)/5)),
            ("type:movie", (0:ℚ) + 1*((5:ℚ)/5))].map Prod.snd).maximum?).getD 0) then
        [("genre:g", (0:ℚ) + 1*((5:ℚ)/5)), ("type:movie", (0:ℚ) + 1*((5:ℚ)/5))].map
          (fun e => (e.1, e.2 / ((([("genre:g", (0:ℚ) + 1*((5:ℚ)/5)),
            ("type:movie", (0:ℚ) + 1*((5:ℚ)/5))].map Prod.snd).maximum?).getD 0)))
      else [("genre:g", (0:ℚ) + 1*((5:ℚ)/5)), ("type:movie", (0:ℚ) + 1*((5:ℚ)/5))]) := rfl
  rw [step1]
  rw [show (0:ℚ) + 1*((5:ℚ)/5) = 1 by norm_num]
  rw [show ((([("genre:g", (1:ℚ)), ("type:movie", (1:ℚ))].map Prod.snd).maximum?).getD 0) = 1
    from rfl]
  rw [if_pos (by norm_num : (0:ℚ) < 1)]
  simp

/-- Helper: the unrated movie of dbContentOnly has cosine similarity 1 with
the profile of user U. -/
theorem dbContentOnly_cosine :
    cosine_similarity_features [("genre:g",(1:ℚ)),("type:movie",1)]
      (extract_item_features { id := 2, item_type := "movie", genres := ["g"] }) = 1 := by
  rw [show extract_item_features { id := 2, item_type := "movie", genres := ["g"] } =
    [("genre:g",(1:ℚ)),("type:movie",1)] from rfl]
  have hks : unionKeys [("genre:g",(1:ℚ)),("type:movie",1)] [("genre:g",(1:ℚ)),("type:movie",1)]
      = ["genre:g","type:movie"] := rfl
  have hmag : magnitudeOf [("genre:g",(1:ℚ)),("type:movie",1)] ["genre:g","type:movie"]
      = Real.sqrt 2 := by
    rw [magnitudeOf, show sumSqOver [("genre:g",(1:ℚ)),("type:movie",1)] ["genre:g","type:movie"]
      = 2 by norm_num [sumSqOver, getDA, lookupA]]
    norm_num
  have hdot : dotOver [("genre:g",(1:ℚ)),("type:movie",1)] [("genre:g",(1:ℚ)),("type:movie",1)]
      ["genre:g","type:movie"] = 2 := by
    norm_num [dotOver, getDA, lookupA]
  have hs2 : Real.sqrt 2 ≠ 0 := by
    intro h
    have := Real.sqrt_eq_zero (by norm_num : (0:ℝ) ≤ 2) |>.mp h
    norm_num at this
  rw [cosine_similarity_features, hks, hmag, hdot]
  rw [if_neg (by norm_num : ¬ (["genre:g","type:movie"].length = 0))]
  rw [if_neg (by
    rintro (h | h)
    · exact hs2 h
    · exact hs2 h)]
  rw [Real.mul_self_sqrt (by norm_num : (0:ℝ) ≤ 2)]
  norm_num

/-- Helper: on dbContentOnly the content recommender returns item 2 with
score 1. -/
theorem dbContentOnly_content :
    generate_content_based_recommendations dbContentOnly "U" (10 * 2) (3/10) =
      [⟨2, { id := 2, item_type := "movie", genres := ["g"] }, 1, "content_based"⟩] := by
  simp only [generate_content_based_recommendations, dbContentOnly_profile]
  rw [if_neg (by decide : ¬ ([("genre:g",(1:ℚ)),("type:movie",1)].length = 0))]
  simp only [dbContentOnly, ratingsOfUser, List.filter_cons, List.filter_nil, List.map_cons,
    List.map_nil, List.foldl_cons, List.foldl_nil]
  norm_num
  rw [dbContentOnly_cosine]
  rw [if_pos (by norm_num : (3/10 : ℝ) ≤ 1)]
  rfl

/-- Helper: on dbContentOnly, the hybrid blender called with
collaborative_weight 1 and content_weight 0 still emits item 2: the
content-only entry survives the merge with hybrid score 1*0 + 0*1 = 0. -/
theorem dbContentOnly_hybrid :
    (generate_hybrid_recommendations dbContentOnly "U" 10 1 0 (3/10)).map HybRec.itemId
      = [2] := by
  have hcol : generate_collaborative_recommendations dbContentOnly "U" (10 * 2) (3/10)
      = [] := rfl
  have hnorm : normalize_scores
      [⟨2, { id := 2, item_type := "movie", genres := ["g"] }, 1, "content_based"⟩] =
      [(⟨2, { id := 2, item_type := "movie", genres := ["g"] }, 1, "content_based"⟩, 1 / 1)] := by
    rw [normalize_scores]
    rw [if_neg (by decide :
      ¬ ([(⟨2, { id := 2, item_type := "movie", genres := ["g"] }, 1, "content_based"⟩ :
        RecOut)].length = 0))]
    rw [show ((([(⟨2, { id := 2, item_type := "movie", genres := ["g"] }, 1,
      "content_based"⟩ : RecOut)].map RecOut.score).maximum?).getD 0) = (1:ℝ) from rfl]
    rw [if_neg (by norm_num : ¬ (1:ℝ) = 0)]
    rfl
  simp only [generate_hybrid_recommendations, hcol, dbContentOnly_content, hnorm]
  rw [show normalize_scores ([] : List RecOut) = [] from rfl]
  dsimp only [List.foldl_cons, List.foldl_nil]
  rfl

/-- C5, counterexample: on dbContentOnly with collaborative_weight = 1 and
content_weight = 0, the hybrid ranking is [2] while the pure collaborative
ranking is empty, so the two orders differ: items coming only from the
content list are kept (with blended score 0) rather than dropped. -/
theorem C5_counterexample :
    (generate_hybrid_recommendations dbContentOnly "U" 10 1 0 (3/10)).map HybRec.itemId
      = [2] ∧
    (generate_collaborative_recommendations dbContentOnly "U" 10 (3/10)).map RecOut.itemId
      = [] ∧
    ([2] : List Nat) ≠ [] :=
  ⟨dbContentOnly_hybrid, rfl, by simp⟩

/-- A filterMap whose function always succeeds is a map. -/
theorem filterMap_eq_map_of_some {α β : Type} (f : α → Option β) (g : α → β) (l : List α)
    (h : ∀ a ∈ l, f a = some (g a)) : l.filterMap f = l.map g := by
  induction l with
  | nil => rfl
  | cons a l ih =>
    rw [List.filterMap_cons, h a (List.mem_cons_self a l), List.map_cons,
      ih (fun x hx => h x (List.mem_cons_of_mem a hx))]

theorem list_sum_pos_of_mem {l : List ℝ} (h0 : ∀ x ∈ l, 0 < x) (hne : l ≠ []) :
    0 < l.sum := by
  cases l with
  | nil => exact absurd rfl hne
  | cons a l =>
    rw [List.sum_cons]
    have ha := h0 a (List.mem_cons_self a l)
    have hl : 0 ≤ l.sum :=
      List.sum_nonneg (fun x hx => le_of_lt (h0 x (List.mem_cons_of_mem a hx)))
    linarith

theorem foldl_max_mem {α : Type} [LinearOrder α] : ∀ (l : List α) (a : α),
    l.foldl max a ∈ a :: l := by
  intro l
  induction l with
  | nil => intro a; exact List.mem_singleton.mpr rfl
  | cons b l ih =>
    intro a
    rw [List.foldl_cons]
    rcases List.mem_cons.mp (ih (max a b)) with h2 | h2
    · rw [h2]
      rcases max_choice a b with h | h
      · rw [h]
        exact List.mem_cons_self _ _
      · rw [h]
        exact List.mem_cons_of_mem _ (List.mem_cons_self _ _)
    · exact List.mem_cons_of_mem _ (List.mem_cons_of_mem _ h2)

theorem le_foldl_max {α : Type} [LinearOrder α] : ∀ (l : List α) (a x : α),
    x ∈ a :: l → x ≤ l.foldl max a := by
  intro l
  induction l with
  | nil =>
    intro a x hx
    rw [List.mem_singleton.mp hx]
    exact le_refl a
  | cons b l ih =>
    intro a x hx
    rw [List.foldl_cons]
    rcases List.mem_cons.mp hx with rfl | hx2
    · exact le_trans (le_max_left x b) (ih _ _ (List.mem_cons_self _ _))
    · rcases List.mem_cons.mp hx2 with rfl | hx3
      · exact le_trans (le_max_right a x) (ih _ _ (List.mem_cons_self _ _))
      · exact ih _ _ (List.mem_cons_of_mem _ hx3)

theorem perm_insertDescBy {α β : Type} [LinearOrder β] (key : α → β) (x : α) (l : List α) :
    (insertDescBy key x l).Perm (x :: l) := by
  induction l with
  | nil => exact List.Perm.refl _
  | cons y ys ih =>
    rw [insertDescBy]
    split
    · exact ((ih.cons y).trans (List.Perm.swap x y ys))
    · exact List.Perm.refl _

theorem perm_sortDescBy {α β : Type} [LinearOrder β] (key : α → β) (l : List α) :
    (sortDescBy key l).Perm l := by
  induction l with
  | nil => exact List.Perm.refl _
  | cons x xs ih =>
    rw [sortDescBy]
    exact (perm_insertDescBy key x (sortDescBy key xs)).trans (ih.cons x)

theorem pairwise_insertDescBy {α β : Type} [LinearOrder β] (key : α → β) (x : α) (l : List α)
    (h : l.Pairwise (fun a b => key b ≤ key a)) :
    (insertDescBy key x l).Pairwise (fun a b => key b ≤ key a) := by
  induction l with
  | nil => simp [insertDescBy]
  | cons y ys ih =>
    rw [insertDescBy]
    rw [List.pairwise_cons] at h
    split
    · rename_i hlt
      rw [List.pairwise_cons]
      constructor
      · intro a ha
        rcases List.mem_cons.mp (((perm_insertDescBy key x ys).mem_iff).mp ha) with rfl | ha2
        · exact le_of_lt hlt
        · exact h.1 a ha2
      · exact ih h.2
    · rename_i hge
      rw [List.pairwise_cons]
      constructor
      · intro a ha
        rcases List.mem_cons.mp ha with rfl | ha2
        · exact not_lt.mp hge
        · exact le_trans (h.1 a ha2) (not_lt.mp hge)
      · exact List.pairwise_cons.mpr h

theorem pairwise_sortDescBy {α β : Type} [LinearOrder β] (key : α → β) (l : List α) :
    (sortDescBy key l).Pairwise (fun a b => key b ≤ key a) := by
  induction l with
  | nil => simp [sortDescBy]
  | cons x xs ih =>
    rw [sortDescBy]
    exact pairwise_insertDescBy key x _ ih

theorem sortDescBy_eq_self {α β : Type} [LinearOrder β] (key : α → β) (l : List α)
    (h : l.Pairwise (fun a b => key b ≤ key a)) : sortDescBy key l = l := by
  induction l with
  | nil => rfl
  | cons x xs ih =>
    rw [List.pairwise_cons] at h
    rw [sortDescBy, ih h.2]
    cases xs with
    | nil => rfl
    | cons y ys =>
      rw [insertDescBy, if_neg (not_lt.mpr (h.1 y (List.mem_cons_self y ys)))]

/-- Every similarity returned by find_similar_users is strictly positive
(only 0 < similarity entries are appended). -/
theorem fsu_pos (db : DB) (u : String) (mc tn : Nat) :
    ∀ p ∈ find_similar_users db u mc tn, 0 < p.2 := by
  intro p hp
  simp only [find_similar_users] at hp
  split at hp
  · cases hp
  · have hp2 := List.mem_of_mem_take hp
    rw [mem_sortDescBy] at hp2
    have h3 := mem_foldl_append
      (fun (acc : List (String × ℝ)) (q : String × RMap) =>
        if q.1 = u then acc
        else if (commonKeys (get_user_ratings_dict db u) q.2).length < mc then acc
        else
          if 0 < pearson_correlation (get_user_ratings_dict db u) q.2 then
            acc ++ [(q.1, pearson_correlation (get_user_ratings_dict db u) q.2)]
          else acc)
      (fun q x => 0 < x.2)
      (by
        intro acc b x hx
        dsimp only at hx
        split at hx
        · exact Or.inl hx
        · split at hx
          · exact Or.inl hx
          · split at hx
            · rename_i hpos
              rcases List.mem_append.mp hx with h | h
              · exact Or.inl h
              · rcases List.mem_singleton.mp h with rfl
                exact Or.inr hpos
            · exact Or.inl hx)
      _ _ p hp2
    rcases h3 with h | ⟨q, hq, hP⟩
    · cases h
    · exact hP

/-- Every value of a user rating dict comes from a rating document of that
user. -/
theorem lookup_user_dict_source (db : DB) (u : String) (i : Nat) (v : ℚ)
    (h : lookupA (get_user_ratings_dict db u) i = some v) :
    ∃ r ∈ db.ratings, r.userId = u ∧ r.itemId = i ∧ r.rating = v := by
  rw [get_user_ratings_dict] at h
  rcases lookup_foldl_upsertA_source Rating.itemId Rating.rating _ _ _ _ h with
    ⟨r, hr, hk, hv⟩ | h2
  · rw [List.mem_filter] at hr
    exact ⟨r, hr.1, by simpa using hr.2, hk, hv⟩
  · cases h2

/-- On a well-formed store every collaborative recommendation score is
strictly positive: each contribution is a positive similarity times a
rating of at least 1. -/
theorem collab_score_pos (db : DB) (u : String) (ℓ : Nat) (ms : ℝ) (hwf : WellFormedDB db) :
    ∀ rec ∈ generate_collaborative_recommendations db u ℓ ms, 0 < rec.score := by
  intro rec hrec
  obtain ⟨hnr, hcnt, hsc⟩ := collab_rec_spec db u ℓ ms rec hrec
  rw [hsc]
  apply div_pos
  · rw [collabContribSum]
    apply list_sum_pos_of_mem
    · intro x hx
      rcases List.mem_map.mp hx with ⟨p, hp, rfl⟩
      rw [collabContributors, List.mem_filter] at hp
      have hpos : 0 < p.2 := fsu_pos db u 3 50 p hp.1
      have hkey : hasKey (get_user_ratings_dict db p.1) rec.itemId = true :=
        (Bool.and_eq_true _ _ |>.mp hp.2).2
      rw [hasKey] at hkey
      obtain ⟨v, hv⟩ := Option.isSome_iff_exists.mp hkey
      obtain ⟨r, hr, hu2, hi2, hrv⟩ := lookup_user_dict_source db p.1 rec.itemId v hv
      have h1v : (1:ℚ) ≤ v := hrv ▸ (hwf r hr).1
      have hg : getDA (get_user_ratings_dict db p.1) rec.itemId 0 = v := by
        rw [getDA, hv]
        rfl
      rw [hg]
      apply mul_pos hpos
      exact_mod_cast lt_of_lt_of_le zero_lt_one h1v
    · intro hmap
      rw [List.map_eq_nil] at hmap
      rw [collabContribCount, hmap] at hcnt
      cases hcnt
  · rw [collabContribCount]
    exact_mod_cast hcnt

theorem pairwise_filterMap_of {α β : Type} {R : α → α → Prop} {S : β → β → Prop}
    (f : α → Option β) (h : ∀ a b x y, R a b → f a = some x → f b = some y → S x y) :
    ∀ l : List α, l.Pairwise R → (l.filterMap f).Pairwise S := by
  intro l
  induction l with
  | nil => intro _; simp
  | cons a l ih =>
    intro hl
    rw [List.pairwise_cons] at hl
    rw [List.filterMap_cons]
    cases hfa : f a with
    | none => exact ih hl.2
    | some x =>
      rw [List.pairwise_cons]
      constructor
      · intro y hy
        rcases List.mem_filterMap.mp hy with ⟨b, hb, hfb⟩
        exact h a b x y (hl.1 b hb) hfa hfb
      · exact ih hl.2

theorem sublist_map_filterMap {α β γ : Type} (f : α → Option β) (g : β → γ) (h : α → γ)
    (hcomp : ∀ a x, f a = some x → g x = h a) :
    ∀ l : List α, ((l.filterMap f).map g).Sublist (l.map h) := by
  intro l
  induction l with
  | nil => simp
  | cons a l ih =>
    rw [List.filterMap_cons, List.map_cons]
    cases hfa : f a with
    | none => exact ih.cons (h a)
    | some x =>
      rw [List.map_cons, hcomp a x hfa]
      exact ih.cons₂ (h a)

/-- The collaborative output is sorted by descending score. -/
theorem collab_sorted (db : DB) (u : String) (ℓ : Nat) (ms : ℝ) :
    (generate_collaborative_recommendations db u ℓ ms).Pairwise
      (fun a b => b.score ≤ a.score) := by
  simp only [generate_collaborative_recommendations]
  split
  · exact List.Pairwise.nil
  · apply pairwise_filterMap_of (R := fun p q : Nat × ℝ => q.2 ≤ p.2)
    · intro a b x y hR hfa hfb
      rcases hfda : List.find? (fun it => it.id == a.1) db.items with _ | ita
      · rw [hfda] at hfa
        cases hfa
      · rcases hfdb : List.find? (fun it => it.id == b.1) db.items with _ | itb
        · rw [hfdb] at hfb
          cases hfb
        · rw [hfda] at hfa
          rw [hfdb] at hfb
          injection hfa with hfa2
          injection hfb with hfb2
          rw [← hfa2, ← hfb2]
          exact hR
    · exact (pairwise_sortDescBy Prod.snd _).sublist (List.take_sublist _ _)

theorem mem_keys_collab_inner (rated : List Nat) (s : ℝ) (entries : List (Nat × ℚ)) :
    ∀ (acc : List (Nat × (ℝ × Nat))) (k : Nat),
      k ∈ keysA (entries.foldl
        (fun acc2 q =>
          if q.1 ∈ rated then acc2
          else updA acc2 q.1 ((0 : ℝ), (0 : Nat)) (fun sc => (sc.1 + s * (q.2 : ℝ), sc.2 + 1)))
        acc) → k ∈ keysA acc ∨ k ∈ keysA entries := by
  induction entries with
  | nil => intro acc k h; exact Or.inl h
  | cons q rest ih =>
    intro acc k h
    rw [List.foldl_cons] at h
    split at h
    · rcases ih _ _ h with h2 | h2
      · exact Or.inl h2
      · exact Or.inr (List.mem_cons_of_mem _ h2)
    · rcases ih _ _ h with h2 | h2
      · rcases (mem_keysA_updA _ _ _ _ _).mp h2 with h3 | h3
        · exact Or.inl h3
        · rw [h3]
          exact Or.inr (List.mem_cons_self _ _)
      · exact Or.inr (List.mem_cons_of_mem _ h2)

theorem mem_keys_collab_outer (db : DB) (u : String) (minSim : ℝ) :
    ∀ (ns : List (String × ℝ)) (acc : List (Nat × (ℝ × Nat))) (k : Nat),
      k ∈ keysA (ns.foldl
        (fun acc p =>
          if p.2 < minSim then acc
          else (get_user_ratings_dict db p.1).foldl
            (fun acc2 q =>
              if q.1 ∈ keysA (get_user_ratings_dict db u) then acc2
              else updA acc2 q.1 ((0 : ℝ), (0 : Nat))
                (fun sc => (sc.1 + p.2 * (q.2 : ℝ), sc.2 + 1)))
            acc) acc) →
      k ∈ keysA acc ∨ ∃ nid : String, k ∈ keysA (get_user_ratings_dict db nid) := by
  intro ns
  induction ns with
  | nil => intro acc k h; exact Or.inl h
  | cons p rest ih =>
    intro acc k h
    rw [List.foldl_cons] at h
    split at h
    · exact ih _ _ h
    · rcases ih _ _ h with h2 | h2
      · rcases mem_keys_collab_inner _ _ _ _ _ h2 with h3 | h3
        · exact Or.inl h3
        · exact Or.inr ⟨p.1, h3⟩
      · exact Or.inr h2

theorem collab_item_exists (db : DB) (u : String) (ms : ℝ) (hwf : WellFormedDB db) (k : Nat)
    (h : k ∈ keysA ((find_similar_users db u 3 50).foldl
      (fun acc p =>
        if p.2 < ms then acc
        else (get_user_ratings_dict db p.1).foldl
          (fun acc2 q =>
            if q.1 ∈ keysA (get_user_ratings_dict db u) then acc2
            else updA acc2 q.1 ((0 : ℝ), (0 : Nat))
              (fun sc => (sc.1 + p.2 * (q.2 : ℝ), sc.2 + 1)))
          acc)
      [])) :
    (db.items.find? (fun it => it.id == k)).isSome := by
  rcases mem_keys_collab_outer db u ms _ [] k h with h2 | ⟨nid, h2⟩
  · cases h2
  · obtain ⟨r, hr, _, hk⟩ := (mem_keys_user_dict db nid k).mp h2
    obtain ⟨_, it, hit, hid⟩ := hwf r hr
    rcases hfd : db.items.find? (fun it2 => it2.id == k) with _ | it2
    · rw [List.find?_eq_none] at hfd
      exact absurd (by rw [hid, hk]; exact beq_self_eq_true k) (hfd it hit)
    · rw [hfd]
      rfl

/-- The collaborative output never repeats an item id. -/
theorem collab_ids_nodup (db : DB) (u : String) (ℓ : Nat) (ms : ℝ) :
    ((generate_collaborative_recommendations db u ℓ ms).map RecOut.itemId).Nodup := by
  simp only [generate_collaborative_recommendations]
  split
  · simp
  · refine List.Nodup.sublist
      (sublist_map_filterMap _ RecOut.itemId Prod.fst ?_ _) ?_
    · intro a x hx
      rcases hfd : List.find? (fun it => it.id == a.1) db.items with _ | it
      · rw [hfd] at hx
        cases hx
      · rw [hfd] at hx
        injection hx with h
        rw [← h]
    · rw [List.map_take]
      refine List.Nodup.sublist (List.take_sublist _ _) ?_
      refine (((perm_sortDescBy Prod.snd _).map Prod.fst).nodup_iff).mpr ?_
      refine List.Nodup.sublist
        (sublist_map_filterMap _ Prod.fst Prod.fst ?_ _) ?_
      · intro a x hx
        split at hx
        · injection hx with h
          rw [← h]
        · cases hx
      · show (keysA _).Nodup
        apply nodup_foldl_preserve
        · intro acc b hacc
          split
          · exact hacc
          · apply nodup_foldl_preserve
            · intro acc2 q hacc2
              split
              · exact hacc2
              · exact nodup_keysA_updA _ _ _ _ hacc2
            · exact hacc
        · simp [keysA]

theorem render_take_ids (db : DB) (S : List (Nat × ℝ)) (n m : Nat) (hnm : n ≤ m)
    (htot : ∀ pr ∈ S, (db.items.find? (fun it => it.id == pr.1)).isSome) :
    (((S.take m).filterMap
        (fun rec => match db.items.find? (fun it => it.id == rec.1) with
          | some it => some (⟨rec.1, it, rec.2, "collaborative"⟩ : RecOut)
          | none => none)).map RecOut.itemId).take n
      = ((S.take n).filterMap
        (fun rec => match db.items.find? (fun it => it.id == rec.1) with
          | some it => some (⟨rec.1, it, rec.2, "collaborative"⟩ : RecOut)
          | none => none)).map RecOut.itemId := by
  have hmap : ∀ k, (((S.take k).filterMap
        (fun rec => match db.items.find? (fun it => it.id == rec.1) with
          | some it => some (⟨rec.1, it, rec.2, "collaborative"⟩ : RecOut)
          | none => none)).map RecOut.itemId) = (S.take k).map Prod.fst := by
    intro k
    rw [filterMap_eq_map_of_some _
      (fun rec => (⟨rec.1, (db.items.find? (fun it => it.id == rec.1)).getD
        { id := 0, item_type := "" }, rec.2, "collaborative"⟩ : RecOut))]
    · rw [List.map_map]
      rfl
    · intro a ha
      obtain ⟨it, hit⟩ := Option.isSome_iff_exists.mp (htot a (List.mem_of_mem_take ha))
      rw [hit]
      rfl
  rw [hmap m, hmap n, List.map_take, List.map_take, List.take_take,
    Nat.min_eq_left hnm]

/-- On a well-formed store, truncating the collaborative ranking of the
doubled limit to the limit gives exactly the ranking at the limit: the two
calls sort the same score list and every entry renders to an item. -/
theorem collab_ids_take (db : DB) (u : String) (limit : Nat) (ms : ℝ)
    (hwf : WellFormedDB db) :
    ((generate_collaborative_recommendations db u (limit * 2) ms).map RecOut.itemId).take limit
      = (generate_collaborative_recommendations db u limit ms).map RecOut.itemId := by
  simp only [generate_collaborative_recommendations]
  split
  · simp
  · apply render_take_ids db _ limit (limit * 2) (by omega)
    intro pr hpr
    rw [mem_sortDescBy] at hpr
    rcases List.mem_filterMap.mp hpr with ⟨e, he, hmk⟩
    have hcnt : 0 < e.2.2 := by
      by_contra h
      rw [if_neg h] at hmk
      cases hmk
    rw [if_pos hcnt] at hmk
    have hpe : pr.1 = e.1 := by
      injection hmk with h1
      rw [← h1]
    rw [hpe]
    exact collab_item_exists db u ms hwf e.1 (List.mem_map_of_mem Prod.fst he)

theorem updA_append_of_not_mem {κ α : Type} [DecidableEq κ] (k : κ) (d : α) (f : α → α) :
    ∀ l : List (κ × α), k ∉ keysA l → updA l k d f = l ++ [(k, f d)] := by
  intro l
  induction l with
  | nil => intro _; rfl
  | cons e rest ih =>
    intro h
    obtain ⟨k1, v1⟩ := e
    have hne : k1 ≠ k := by
      intro h2
      exact h (by subst h2; exact List.mem_cons_self _ _)
    simp only [updA]
    rw [if_neg hne, ih (fun h2 => h (List.mem_cons_of_mem _ h2))]
    rfl

/-- A fold of updA insertions over fresh, pairwise distinct keys is a plain
append of the new entries. -/
theorem foldl_updA_fresh {κ α β : Type} [DecidableEq κ] (key : β → κ) (dflt : α)
    (f : β → α → α) :
    ∀ (l : List β) (acc : List (κ × α)),
      (∀ b ∈ l, key b ∉ keysA acc) → (l.map key).Nodup →
      l.foldl (fun a b => updA a (key b) dflt (fun e => f b e)) acc
        = acc ++ l.map (fun b => (key b, f b dflt)) := by
  intro l
  induction l with
  | nil => intro acc _ _; simp
  | cons b rest ih =>
    intro acc hfresh hnd
    rw [List.foldl_cons,
      updA_append_of_not_mem _ _ _ _ (hfresh b (List.mem_cons_self _ _))]
    rw [List.map_cons, List.nodup_cons] at hnd
    have hfresh2 : ∀ q ∈ rest,
        key q ∉ keysA (acc ++ [(key b, (fun e => f b e) dflt)]) := by
      intro q hq hmem
      rw [keysA, List.map_append] at hmem
      rcases List.mem_append.mp hmem with h2 | h2
      · exact hfresh q (List.mem_cons_of_mem _ hq) h2
      · rw [List.map_cons, List.map_nil, List.mem_singleton] at h2
        have h3 : key q = key b := h2
        exact hnd.1 (h3 ▸ List.mem_map_of_mem key hq)
    rw [ih _ hfresh2 hnd.2, List.map_cons, List.append_assoc]
    rfl

theorem maximum_getD_spec (l : List ℝ) (hne : l ≠ []) :
    (l.maximum?).getD 0 ∈ l ∧ ∀ x ∈ l, x ≤ (l.maximum?).getD 0 := by
  cases l with
  | nil => exact absurd rfl hne
  | cons a t =>
    have h1 : ((a :: t).maximum?).getD 0 = t.foldl max a := rfl
    rw [h1]
    exact ⟨foldl_max_mem t a, fun x hx => le_foldl_max t a x hx⟩

theorem maximum_score_pos (recs : List RecOut) (hne : recs ≠ [])
    (hpos : ∀ r ∈ recs, 0 < r.score) :
    0 < ((recs.map RecOut.score).maximum?).getD 0 := by
  obtain ⟨hMmem, _⟩ := maximum_getD_spec (recs.map RecOut.score)
    (fun h => hne (List.map_eq_nil.mp h))
  rcases List.mem_map.mp hMmem with ⟨r, hr, hrM⟩
  rw [← hrM]
  exact hpos r hr

/-- With a nonempty list of positive scores, normalize_scores divides every
score by the maximum. -/
theorem normalize_scores_pos (recs : List RecOut) (hne : recs ≠ [])
    (hpos : ∀ r ∈ recs, 0 < r.score) :
    normalize_scores recs = recs.map
      (fun r => (r, r.score / ((recs.map RecOut.score).maximum?).getD 0)) := by
  simp only [normalize_scores]
  rw [if_neg (fun h => hne (List.length_eq_zero.mp h)),
    if_neg (ne_of_gt (maximum_score_pos recs hne hpos))]

/-- C5, amended: with collaborative_weight = 1 and content_weight = 0, for
every well-formed store (ratings of at least 1 that reference stored items)
and whenever the content recommender returns no items at the over-fetched
limit, the hybrid ranking order (sequence of item ids) equals the pure
collaborative ranking order for the same user and limit. -/
theorem C5_hybrid_pure_weights (db : DB) (u : String) (limit : Nat) (minSim : ℝ)
    (hwf : WellFormedDB db)
    (hc : generate_content_based_recommendations db u (limit * 2) minSim = []) :
    (generate_hybrid_recommendations db u limit 1 0 minSim).map HybRec.itemId
      = (generate_collaborative_recommendations db u limit minSim).map RecOut.itemId := by
  have hids := collab_ids_take db u limit minSim hwf
  simp only [generate_hybrid_recommendations, hc]
  rw [show normalize_scores ([] : List RecOut) = [] from rfl, List.foldl_nil]
  by_cases hC2 : generate_collaborative_recommendations db u (limit * 2) minSim = []
  · rw [hC2] at hids ⊢
    rw [show normalize_scores ([] : List RecOut) = [] from rfl, List.foldl_nil]
    simp only [List.map_nil, List.take_nil] at hids
    simp only [List.filterMap_nil]
    rw [show sortDescBy HybRec.score [] = [] from rfl]
    simp only [List.take_nil, List.map_nil]
    exact hids
  · have hpos := collab_score_pos db u (limit * 2) minSim hwf
    have hM0 : 0 < (((generate_collaborative_recommendations db u (limit * 2) minSim).map
        RecOut.score).maximum?).getD 0 := maximum_score_pos _ hC2 hpos
    rw [normalize_scores_pos _ hC2 hpos]
    have hnd2 : (((generate_collaborative_recommendations db u (limit * 2) minSim).map
        (fun r => (r, r.score / (((generate_collaborative_recommendations db u (limit * 2)
          minSim).map RecOut.score).maximum?).getD 0))).map
        (fun p : RecOut × ℝ => p.1.itemId)).Nodup := by
      rw [List.map_map]
      exact collab_ids_nodup db u (limit * 2) minSim
    have h1 := foldl_updA_fresh (fun p : RecOut × ℝ => p.1.itemId) ({} : HybAcc)
      (fun p e => ({ item := some p.1, collaborative_score := p.2,
                     content_score := e.content_score, count := e.count + 1 } : HybAcc))
      ((generate_collaborative_recommendations db u (limit * 2) minSim).map
        (fun r => (r, r.score / (((generate_collaborative_recommendations db u (limit * 2)
          minSim).map RecOut.score).maximum?).getD 0)))
      [] (by simp [keysA]) hnd2
    rw [List.nil_append, List.map_map] at h1
    rw [h1, List.filterMap_map]
    have hfm : List.filterMap
        ((fun e : Nat × HybAcc =>
          match e.2.item with
          | none => none
          | some base => some
              (⟨e.1, base.item,
                if 1 < e.2.count then
                  (1 * e.2.collaborative_score + 0 * e.2.content_score) * (6/5)
                else 1 * e.2.collaborative_score + 0 * e.2.content_score,
                e.2.collaborative_score, e.2.content_score, "hybrid"⟩ : HybRec)) ∘
          ((fun b : RecOut × ℝ => (b.1.itemId,
            ({ item := some b.1, collaborative_score := b.2,
                content_score := ({} : HybAcc).content_score,
                count := ({} : HybAcc).count + 1 } : HybAcc))) ∘
            (fun r : RecOut => (r, r.score /
              (((generate_collaborative_recommendations db u (limit * 2) minSim).map
                RecOut.score).maximum?).getD 0))))
        (generate_collaborative_recommendations db u (limit * 2) minSim)
      = (generate_collaborative_recommendations db u (limit * 2) minSim).map
          (fun r : RecOut =>
            (⟨r.itemId, r.item,
              1 * (r.score / (((generate_collaborative_recommendations db u (limit * 2)
                minSim).map RecOut.score).maximum?).getD 0) + 0 * 0,
              r.score / (((generate_collaborative_recommendations db u (limit * 2)
                minSim).map RecOut.score).maximum?).getD 0, 0, "hybrid"⟩ : HybRec)) :=
      filterMap_eq_map_of_some _ _ _ (fun a _ => rfl)
    rw [hfm]
    have hpair : ((generate_collaborative_recommendations db u (limit * 2) minSim).map
        (fun r : RecOut =>
          (⟨r.itemId, r.item,
            1 * (r.score / (((generate_collaborative_recommendations db u (limit * 2)
              minSim).map RecOut.score).maximum?).getD 0) + 0 * 0,
            r.score / (((generate_collaborative_recommendations db u (limit * 2)
              minSim).map RecOut.score).maximum?).getD 0, 0, "hybrid"⟩ : HybRec))).Pairwise
        (fun a b => HybRec.score b ≤ HybRec.score a) := by
      refine List.Pairwise.map _ (fun a b hab => ?_)
        (collab_sorted db u (limit * 2) minSim)
      dsimp only
      have h2 := (div_le_div_right hM0).mpr hab
      linarith
    rw [sortDescBy_eq_self HybRec.score _ hpair, List.map_take, List.map_map]
    exact hids

/-- Helper: on dbLowRatings the Pearson correlation of the rating maps of
A and B is 1 over their three common items. -/
theorem dbLowRatings_pearson :
    pearson_correlation [(1,2),(2,1),(3,2)] [(1,2),(2,1),(3,2),(4,5)] = 1 := by
  have hc : commonKeys [(1,2),(2,1),(3,2)] [(1,2),(2,1),(3,2),(4,5)] = [1,2,3] := rfl
  have hd : pearsonDenom [(1,2),(2,1),(3,2)] [(1,2),(2,1),(3,2),(4,5)] = 2/3 := by
    have h1 : pearsonSumSq [(1,2),(2,1),(3,2)] [1,2,3] *
        pearsonSumSq [(1,2),(2,1),(3,2),(4,5)] [1,2,3] = 4/9 := by
      norm_num [pearsonSumSq, pearsonMean, getDA, lookupA]
    rw [pearsonDenom, hc, h1]
    rw [show (((4:ℚ)/9 : ℚ) : ℝ) = (2/3 : ℝ)^2 by norm_num]
    exact Real.sqrt_sq (by norm_num)
  have hn : pearsonNum [(1,2),(2,1),(3,2)] [(1,2),(2,1),(3,2),(4,5)] [1,2,3] = 2/3 := by
    norm_num [pearsonNum, pearsonMean, getDA, lookupA]
  rw [pearson_correlation, hc, hd, hn]
  norm_num

/-- Helper: on dbLowRatings, B is the single similar user of A. -/
theorem dbLowRatings_fsu : find_similar_users dbLowRatings "A" 3 50 = [("B", 1)] := by
  have h1 : find_similar_users dbLowRatings "A" 3 50 =
      (sortDescBy (fun p => p.2)
        (if 0 < pearson_correlation [(1,2),(2,1),(3,2)] [(1,2),(2,1),(3,2),(4,5)] then
          [("B", pearson_correlation [(1,2),(2,1),(3,2)] [(1,2),(2,1),(3,2),(4,5)])]
        else [])).take 50 := rfl
  rw [h1, dbLowRatings_pearson, if_pos (by norm_num : (0:ℝ) < 1)]
  rfl

/-- Helper: on dbLowRatings the collaborative recommender returns item 4
with score 5 to user A. -/
theorem dbLowRatings_collab_eval :
    generate_collaborative_recommendations dbLowRatings "A" 10 (3/10) =
      [⟨4, { id := 4, item_type := "movie" }, 5, "collaborative"⟩] := by
  have h1 : generate_collaborative_recommendations dbLowRatings "A" 10 (3/10) =
      [⟨4, { id := 4, item_type := "movie" },
        (0 + 1 * ((5:ℚ) : ℝ)) / ((1 : ℕ) : ℝ), "collaborative"⟩] := by
    simp only [generate_collaborative_recommendations, dbLowRatings_fsu]
    dsimp only [List.foldl_cons, List.foldl_nil]
    rw [if_neg (by norm_num : ¬ (1:ℝ) < (3/10 : ℝ))]
    rfl
  rw [h1]
  have h2 : (0 + 1 * ((5:ℚ) : ℝ)) / ((1 : ℕ) : ℝ) = 5 := by
    push_cast
    ring
  rw [h2]

/-- C5, witness: dbLowRatings is well formed, its content recommender
returns nothing for user A (all of the ratings of A are below 3), and the
amended theorem applied there makes the hybrid and collaborative rankings
both equal to [4]. -/
theorem C5_witness :
    WellFormedDB dbLowRatings ∧
    generate_content_based_recommendations dbLowRatings "A" (10 * 2) (3/10) = [] ∧
    (generate_hybrid_recommendations dbLowRatings "A" 10 1 0 (3/10)).map HybRec.itemId
      = (generate_collaborative_recommendations dbLowRatings "A" 10 (3/10)).map
          RecOut.itemId ∧
    (generate_collaborative_recommendations dbLowRatings "A" 10 (3/10)).map
        RecOut.itemId = [4] := by
  have hwf : WellFormedDB dbLowRatings := by unfold WellFormedDB; decide
  have hc : generate_content_based_recommendations dbLowRatings "A" (10 * 2) (3/10) = [] :=
    rfl
  refine ⟨hwf, hc, C5_hybrid_pure_weights dbLowRatings "A" 10 (3/10) hwf hc, ?_⟩
  rw [dbLowRatings_collab_eval]
  rfl
